import Mathlib

/-!
# Pledge-challenges settlement engine: a shallow embedding

Shallow embedding of the commitment settlement engine of `app.py`:
threads (forward pledge pools), reverse requests (competitive-ask pools),
the audience gate, the deal lock and the append-only balance ledger.

Monetary amounts (floats in the source) are modelled as `ℚ`; timestamps
(millisecond integers and parsed ISO deadlines) as `Int`.  Database rows
generated with fresh UUIDs are modelled with `Nat` identifiers drawn from a
counter `next_id` threaded through the state.  Rows owned by a thread or a
reverse request through an ORM relationship declared with
`cascade="all, delete-orphan"` (pledges, targets, bids) are nested inside the
owning record, so ORM cascade deletion is deletion of the record.  `DealLock`
and `BalanceEntry` rows have no foreign key to their deal and live in separate
top-level tables, exactly as in the source.  Each HTTP handler becomes a
function `AppState → … → Except ApiError AppState`; an `Except.error` result
models the handler returning an error response with the transaction rolled
back (no state change).
-/

namespace PledgeChallenges

attribute [local semireducible] Rat.add Rat.sub Rat.mul Rat.inv

/-- A registered user (`User` model): only the fields the engine reads. -/
structure User where
  id : String
  username : String
deriving Repr, DecidableEq

/-- A `GroupMembership` row, as read by the audience gate. -/
structure GroupMembership where
  group_id : String
  user_id : String
  status : String
deriving Repr, DecidableEq

/-- A `ThreadPledge` row. -/
structure ThreadPledge where
  id : Nat
  supporter_id : String
  amount : ℚ
  created_at : Int
deriving Repr, DecidableEq

/-- A `Thread` row with its cascade-owned pledge and target rows nested.
`targets` is the set of targeted user ids (`ThreadTarget.user_id`). -/
structure Thread where
  id : String
  creator_id : String
  target_amount : ℚ
  deadline_at : Int
  committed_current : Bool
  committed_amount : ℚ
  group_id : Option String
  audience_mode : String
  pledges : List ThreadPledge
  targets : List String
deriving Repr, DecidableEq

/-- A `ReverseBid` row. -/
structure ReverseBid where
  id : Nat
  bidder_id : String
  ask_amount : ℚ
  created_at : Int
  active : Bool
deriving Repr, DecidableEq

/-- A `ReversePledge` row. -/
structure ReversePledge where
  id : Nat
  supporter_id : String
  amount : ℚ
  created_at : Int
deriving Repr, DecidableEq

/-- A `ReverseRequest` row with its cascade-owned bids, pledges and targets. -/
structure ReverseRequest where
  id : String
  creator_id : String
  status : String
  group_id : Option String
  audience_mode : String
  winner_bid_id : Option Nat
  bids : List ReverseBid
  pledges : List ReversePledge
  targets : List String
deriving Repr, DecidableEq

/-- A `DealLock` row: the at-most-once settlement marker keyed by
`(deal_type, deal_id)`.  No foreign key to the deal. -/
structure DealLock where
  id : Nat
  deal_type : String
  deal_id : String
  created_at : Int
deriving Repr, DecidableEq

/-- A `BalanceEntry` row (ledger entry).  No foreign key to the deal. -/
structure BalanceEntry where
  id : Nat
  deal_type : String
  deal_id : String
  payer_id : String
  payee_id : String
  amount : ℚ
  status : String
  created_at : Int
  declared_at : Int
deriving Repr, DecidableEq

/-- The persistent database state seen by the engine. -/
structure AppState where
  threads : List Thread
  reverses : List ReverseRequest
  locks : List DealLock
  entries : List BalanceEntry
  memberships : List GroupMembership
  next_id : Nat
deriving Repr, DecidableEq

/-- The error taxonomy of §7, as surfaced by the handlers
(401 → `auth_required`, 404 → `not_found`, 403 → `permission_denied`,
malformed amount → `validation`, wrong-status 400s → `invalid_state`). -/
inductive ApiError where
  | validation
  | auth_required
  | not_found
  | permission_denied
  | invalid_state
deriving Repr, DecidableEq

/-- `sum(float(p.amount) for p in thread.pledges)`. -/
def pledged_total (ps : List ThreadPledge) : ℚ :=
  (ps.map (fun p => p.amount)).sum

/-- `sum(float(p.amount) for p in req.pledges)`. -/
def reverse_pledged_total (ps : List ReversePledge) : ℚ :=
  (ps.map (fun p => p.amount)).sum

/-- `_thread_status`: first-match cascade over
committed_current / funded / expired / open. -/
def thread_status (t : Thread) (total : ℚ) (now : Int) : String :=
  if t.committed_current then "committed_current"
  else if total ≥ t.target_amount then "funded"
  else if now > t.deadline_at then "expired"
  else "open"

/-- `_is_admin`: username (lower-cased at registration) equals the
configured admin username. -/
def is_admin (u : User) (admin_username : String) : Bool :=
  u.username == admin_username

/-- `_is_group_member`: an accepted membership row exists. -/
def is_group_member (ms : List GroupMembership) (gid uid : String) : Bool :=
  ms.any (fun m => m.group_id == gid && m.user_id == uid && m.status == "accepted")

/-- `_thread_user_allowed`: the audience gate for threads. -/
def thread_user_allowed (ms : List GroupMembership) (t : Thread) (u : User) : Bool :=
  if t.audience_mode == "open" then true
  else if t.audience_mode == "group" then
    match t.group_id with
    | some gid => is_group_member ms gid u.id
    | none => false
  else if t.audience_mode == "specific" then t.targets.contains u.id
  else false

/-- `_reverse_user_allowed_to_bid`: the audience gate for reverse requests. -/
def reverse_user_allowed_to_bid (ms : List GroupMembership) (req : ReverseRequest) (u : User) : Bool :=
  if req.audience_mode == "open" then true
  else if req.audience_mode == "group" then
    match req.group_id with
    | some gid => is_group_member ms gid u.id
    | none => false
  else if req.audience_mode == "specific" then req.targets.contains u.id
  else false

/-- Strict lexicographic order on the sort key `(ask_amount, created_at)`
used by `_lowest_active_bid`. -/
def bid_key_lt (a b : ReverseBid) : Prop :=
  a.ask_amount < b.ask_amount ∨ (a.ask_amount = b.ask_amount ∧ a.created_at < b.created_at)

instance (a b : ReverseBid) : Decidable (bid_key_lt a b) := by
  unfold bid_key_lt; infer_instance

/-- One step of the minimum computation: keep the current minimum unless a
strictly smaller key appears (so the leftmost minimal element wins, matching
the first element of Python's stable sort). -/
def min_bid_step (acc : Option ReverseBid) (b : ReverseBid) : Option ReverseBid :=
  match acc with
  | none => some b
  | some m => if bid_key_lt b m then some b else some m

/-- `_lowest_active_bid`: `sorted(active, key=(ask_amount, created_at))[0]`. -/
def lowest_active_bid (req : ReverseRequest) : Option ReverseBid :=
  (req.bids.filter (fun b => b.active)).foldl min_bid_step none

/-- `_deal_locked`: a lock row with the key exists. -/
def deal_locked (locks : List DealLock) (dt di : String) : Bool :=
  locks.any (fun l => l.deal_type == dt && l.deal_id == di)

/-- `_lock_deal`: insert one lock row for the key. -/
def lock_deal (st : AppState) (dt di : String) (now : Int) : AppState :=
  { st with
    locks := st.locks ++ [{ id := st.next_id, deal_type := dt, deal_id := di, created_at := now }]
    next_id := st.next_id + 1 }

/-- `_create_balance_entries`: one open ledger entry per `(payer, amount)`
item, skipping non-positive amounts. -/
def create_balance_entries (st : AppState) (dt di payee : String) (now : Int) :
    List (String × ℚ) → AppState
  | [] => st
  | (payer, amt) :: rest =>
    if amt ≤ 0 then create_balance_entries st dt di payee now rest
    else
      create_balance_entries
        { st with
          entries := st.entries ++
            [{ id := st.next_id, deal_type := dt, deal_id := di, payer_id := payer,
               payee_id := payee, amount := amt, status := "open",
               created_at := now, declared_at := 0 }]
          next_id := st.next_id + 1 }
        dt di payee now rest

/-- `session.query(Thread).filter(Thread.id == thread_id).first()`. -/
def find_thread (st : AppState) (tid : String) : Option Thread :=
  st.threads.find? (fun t => t.id == tid)

/-- `session.query(ReverseRequest).filter(... == request_id).first()`. -/
def find_reverse (st : AppState) (rid : String) : Option ReverseRequest :=
  st.reverses.find? (fun r => r.id == rid)

/-- Write back a mutated thread row (ORM identity: replace by primary key). -/
def update_thread (ts : List Thread) (t' : Thread) : List Thread :=
  ts.map (fun t => if t.id == t'.id then t' else t)

/-- Write back a mutated reverse-request row. -/
def update_reverse (rs : List ReverseRequest) (r' : ReverseRequest) : List ReverseRequest :=
  rs.map (fun r => if r.id == r'.id then r' else r)

/-- `_try_close_thread_deal`: settle a thread deal once its derived status is
`funded` or `committed_current`, guarded by the deal lock.  `t` is the live
thread row, assumed fetched from `st`. -/
def try_close_thread_deal (st : AppState) (t : Thread) (now : Int) : AppState :=
  if ¬ (thread_status t (pledged_total t.pledges) now = "funded" ∨
        thread_status t (pledged_total t.pledges) now = "committed_current") then st
  else if deal_locked st.locks "thread" t.id then st
  else
    lock_deal
      (create_balance_entries st "thread" t.id t.creator_id now
        (t.pledges.map (fun p => (p.supporter_id, p.amount))))
      "thread" t.id now

/-- `_try_close_reverse_deal`: settle a reverse deal once the pledged total
meets the lowest active bid.  Returns the updated state together with the
mutated request row (as the ORM session would expose it afterwards). -/
def try_close_reverse_deal (st : AppState) (req : ReverseRequest) (now : Int) :
    AppState × ReverseRequest :=
  if req.status ≠ "open" then (st, req)
  else if deal_locked st.locks "reverse" req.id then (st, req)
  else
    match lowest_active_bid req with
    | none => (st, req)
    | some low =>
      if reverse_pledged_total req.pledges < low.ask_amount then (st, req)
      else
        (lock_deal
          (create_balance_entries
            { st with reverses := (update_reverse st.reverses
                { req with status := "closed", winner_bid_id := some low.id }) }
            "reverse" req.id low.bidder_id now
            (req.pledges.map (fun p => (p.supporter_id, p.amount))))
          "reverse" req.id now,
         { req with status := "closed", winner_bid_id := some low.id })

/-- Handler `create_thread_pledge` (`POST /api/threads/<id>/pledges`):
amount validation, authentication, 404, audience gate, open-status check,
remaining-capacity check, pledge insert, then `_try_close_thread_deal`. -/
def create_thread_pledge (st : AppState) (user : Option User) (tid : String)
    (amount : ℚ) (now : Int) : Except ApiError AppState :=
  if amount < 1 then .error .validation
  else
    match user with
    | none => .error .auth_required
    | some u =>
      match find_thread st tid with
      | none => .error .not_found
      | some t =>
        if ¬ thread_user_allowed st.memberships t u then .error .permission_denied
        else
          let total := pledged_total t.pledges
          if thread_status t total now ≠ "open" then .error .invalid_state
          else
            let remaining := t.target_amount - total
            if remaining ≤ 0 then .error .invalid_state
            else if remaining < amount then .error .validation
            else
              let p : ThreadPledge :=
                { id := st.next_id, supporter_id := u.id, amount := amount, created_at := now }
              let t' := { t with pledges := t.pledges ++ [p] }
              let st1 := { st with threads := update_thread st.threads t', next_id := st.next_id + 1 }
              .ok (try_close_thread_deal st1 t' now)

/-- Handler `commit_current` (`POST /api/threads/<id>/commit-current`):
creator-only one-shot capture of a partial pledged total. -/
def commit_current (st : AppState) (user : Option User) (tid : String)
    (now : Int) : Except ApiError AppState :=
  match user with
  | none => .error .auth_required
  | some u =>
    match find_thread st tid with
    | none => .error .not_found
    | some t =>
      if t.creator_id ≠ u.id then .error .permission_denied
      else
        let total := pledged_total t.pledges
        if total ≤ 0 ∨ total ≥ t.target_amount then .error .invalid_state
        else if t.committed_current then .error .invalid_state
        else
          let t' := { t with committed_current := true, committed_amount := total }
          let st1 := { st with threads := update_thread st.threads t' }
          .ok (try_close_thread_deal st1 t' now)

/-- Handler `delete_thread` (`DELETE /api/threads/<id>`): creator or admin
deletes the thread row; the ORM cascades to pledges and targets (nested in
the row here), while lock and ledger rows have no foreign key and stay. -/
def delete_thread (st : AppState) (user : Option User) (tid : String)
    (admin_username : String) : Except ApiError AppState :=
  match user with
  | none => .error .auth_required
  | some u =>
    match find_thread st tid with
    | none => .error .not_found
    | some t =>
      if ¬ (t.creator_id == u.id || is_admin u admin_username) then .error .permission_denied
      else .ok { st with threads := st.threads.filter (fun x => !(x.id == tid)) }

/-- Handler `create_or_update_bid` (`POST /api/reverse/<id>/bids`): ask
validation, authentication, 404, open-status check, audience gate, then
replace the bidder's active bid in place or insert a new one, then
`_try_close_reverse_deal`. -/
def create_or_update_bid (st : AppState) (user : Option User) (rid : String)
    (ask_amount : ℚ) (now : Int) : Except ApiError AppState :=
  if ask_amount < 1 then .error .validation
  else
    match user with
    | none => .error .auth_required
    | some u =>
      match find_reverse st rid with
      | none => .error .not_found
      | some req =>
        if req.status ≠ "open" then .error .invalid_state
        else if ¬ reverse_user_allowed_to_bid st.memberships req u then .error .permission_denied
        else
          let own := req.bids.find? (fun b => b.bidder_id == u.id && b.active)
          let req' :=
            match own with
            | some ob =>
              { req with bids := req.bids.map (fun b =>
                  if b.id == ob.id then { b with ask_amount := ask_amount, created_at := now } else b) }
            | none =>
              { req with bids := req.bids ++
                  [{ id := st.next_id, bidder_id := u.id, ask_amount := ask_amount,
                     created_at := now, active := true }] }
          let st1 := { st with
            reverses := update_reverse st.reverses req'
            next_id := if own.isSome then st.next_id else st.next_id + 1 }
          .ok (try_close_reverse_deal st1 req' now).1

/-- The remaining-capacity check of `create_reverse_pledge`: performed only
when a lowest active bid exists (`if low:` in the source), rejecting when the
bid is already met (`remaining <= 0`) or when the pledge would overshoot it. -/
def reverse_capacity_check (req : ReverseRequest) (amount : ℚ) : Option ApiError :=
  match lowest_active_bid req with
  | some low =>
    if low.ask_amount - reverse_pledged_total req.pledges ≤ 0 then some ApiError.invalid_state
    else if low.ask_amount - reverse_pledged_total req.pledges < amount then some ApiError.validation
    else none
  | none => none

/-- Handler `create_reverse_pledge` (`POST /api/reverse/<id>/pledges`):
amount validation, authentication, 404, open-status check, the capacity check
above, pledge insert, then `_try_close_reverse_deal`.  Note: no audience-gate
check on this path. -/
def create_reverse_pledge (st : AppState) (user : Option User) (rid : String)
    (amount : ℚ) (now : Int) : Except ApiError AppState :=
  if amount < 1 then .error .validation
  else
    match user with
    | none => .error .auth_required
    | some u =>
      match find_reverse st rid with
      | none => .error .not_found
      | some req =>
        if req.status ≠ "open" then .error .invalid_state
        else
          match reverse_capacity_check req amount with
          | some e => .error e
          | none =>
            let p : ReversePledge :=
              { id := st.next_id, supporter_id := u.id, amount := amount, created_at := now }
            let req' := { req with pledges := req.pledges ++ [p] }
            let st1 := { st with reverses := update_reverse st.reverses req', next_id := st.next_id + 1 }
            .ok (try_close_reverse_deal st1 req' now).1

/-- Handler `declare_received` (`POST /api/balance/<id>/declare-received`):
payee-only, open-only, one-way transition to `received_declared`. -/
def declare_received (st : AppState) (user : Option User) (eid : Nat)
    (now : Int) : Except ApiError AppState :=
  match user with
  | none => .error .auth_required
  | some u =>
    match st.entries.find? (fun e => e.id == eid) with
    | none => .error .not_found
    | some e =>
      if e.payee_id ≠ u.id then .error .permission_denied
      else if e.status ≠ "open" then .error .invalid_state
      else
        let e' := { e with status := "received_declared", declared_at := now }
        .ok { st with entries := st.entries.map (fun x => if x.id == e.id then e' else x) }

instance {ε α : Type} [DecidableEq ε] [DecidableEq α] : DecidableEq (Except ε α) := fun a b =>
  match a, b with
  | .error x, .error y =>
    if h : x = y then .isTrue (by rw [h]) else .isFalse (by intro hc; cases hc; exact h rfl)
  | .error _, .ok _ => .isFalse (by intro hc; cases hc)
  | .ok _, .error _ => .isFalse (by intro hc; cases hc)
  | .ok x, .ok y =>
    if h : x = y then .isTrue (by rw [h]) else .isFalse (by intro hc; cases hc; exact h rfl)

/-- Number of deal-lock rows for a key. -/
def lock_count (locks : List DealLock) (dt di : String) : Nat :=
  (locks.filter (fun l => l.deal_type == dt && l.deal_id == di)).length

/-- Number of ledger entries for a deal key. -/
def entry_count (es : List BalanceEntry) (dt di : String) : Nat :=
  (es.filter (fun e => e.deal_type == dt && e.deal_id == di)).length

/-- The status cascade exactly as §4.2 words it (spec-side definition, used
only to compare against `thread_status` in C7). -/
def spec_thread_status (committedCurrent : Bool) (pledge_amounts : List ℚ)
    (targetAmount : ℚ) (deadline now : Int) : String :=
  if committedCurrent then "committed_current"
  else if pledge_amounts.sum ≥ targetAmount then "funded"
  else if now > deadline then "expired"
  else "open"

/-- Run a sequence of thread-pledge requests; a rejected request leaves the
state unchanged (the handler's transaction rolls back). -/
def run_thread_pledges (st : AppState) :
    List (Option User × String × ℚ × Int) → AppState
  | [] => st
  | (u, tid, a, now) :: rest =>
    match create_thread_pledge st u tid a now with
    | .ok st' => run_thread_pledges st' rest
    | .error _ => run_thread_pledges st rest

/-- Every thread's pledged total is at most its target (C5's no-overshoot law). -/
def targets_respected (st : AppState) : Prop :=
  ∀ t ∈ st.threads, pledged_total t.pledges ≤ t.target_amount

instance (st : AppState) : Decidable (targets_respected st) := by
  unfold targets_respected
  infer_instance

/-! ### Concrete rows and states used by witnesses and counterexamples -/

def alice : User := { id := "u1", username := "alice" }

def bob : User := { id := "u2", username := "bob" }

def carol : User := { id := "u3", username := "carol" }

def dave : User := { id := "u4", username := "dave" }

/-- A funded thread (target 10, pledge of 10) with no lock and no ledger. -/
def w1_thread : Thread :=
  { id := "t1", creator_id := "u1", target_amount := 10, deadline_at := 100,
    committed_current := false, committed_amount := 0, group_id := none,
    audience_mode := "open",
    pledges := [{ id := 0, supporter_id := "u2", amount := 10, created_at := 5 }],
    targets := [] }

/-- A settleable reverse request: one active ask of 5, pledges summing to 5. -/
def w1_req : ReverseRequest :=
  { id := "r1", creator_id := "u1", status := "open", group_id := none,
    audience_mode := "open", winner_bid_id := none,
    bids := [{ id := 1, bidder_id := "u2", ask_amount := 5, created_at := 6, active := true }],
    pledges := [{ id := 2, supporter_id := "u3", amount := 5, created_at := 7 }],
    targets := [] }

def w1_st : AppState :=
  { threads := [w1_thread], reverses := [w1_req], locks := [], entries := [],
    memberships := [], next_id := 3 }

/-- A fresh open reverse request with no bids and no pledges. -/
def w2_req : ReverseRequest :=
  { id := "r2", creator_id := "u1", status := "open", group_id := none,
    audience_mode := "open", winner_bid_id := none,
    bids := [], pledges := [], targets := [] }

def w2_st : AppState :=
  { threads := [], reverses := [w2_req], locks := [], entries := [],
    memberships := [], next_id := 0 }

/-- Two pledges of 100 accumulate with no active bid (so no ceiling check),
then a bid of 150 arrives and immediately settles. -/
def w2_run : Except ApiError AppState :=
  (create_reverse_pledge w2_st (some carol) "r2" 100 10).bind (fun s1 =>
    (create_reverse_pledge s1 (some dave) "r2" 100 11).bind (fun s2 =>
      create_or_update_bid s2 (some bob) "r2" 150 12))

def w2_final : AppState :=
  match w2_run with
  | .ok s => s
  | .error _ => w2_st

def w2_closed_req : ReverseRequest :=
  match find_reverse w2_final "r2" with
  | some r => r
  | none => w2_req

/-- An open reverse request with one active ask of 5 and no pledges yet. -/
def w2b_req : ReverseRequest :=
  { id := "r2b", creator_id := "u1", status := "open", group_id := none,
    audience_mode := "open", winner_bid_id := none,
    bids := [{ id := 0, bidder_id := "u2", ask_amount := 5, created_at := 1, active := true }],
    pledges := [], targets := [] }

def w2b_st : AppState :=
  { threads := [], reverses := [w2b_req], locks := [], entries := [],
    memberships := [], next_id := 1 }

def w2b_final : AppState :=
  match create_reverse_pledge w2b_st (some carol) "r2b" 5 20 with
  | .ok s => s
  | .error _ => w2b_st

def w2b_req_after : ReverseRequest :=
  match find_reverse w2b_final "r2b" with
  | some r => r
  | none => w2b_req

/-- A user-list-restricted reverse request targeting only `alice`. -/
def w3_req : ReverseRequest :=
  { id := "r3", creator_id := "u1", status := "open", group_id := none,
    audience_mode := "specific", winner_bid_id := none,
    bids := [], pledges := [], targets := ["u1"] }

def w3_st : AppState :=
  { threads := [], reverses := [w3_req], locks := [], entries := [],
    memberships := [], next_id := 0 }

def w3_final : AppState :=
  match create_reverse_pledge w3_st (some carol) "r3" 5 10 with
  | .ok s => s
  | .error _ => w3_st

def w3_req_after : ReverseRequest :=
  match find_reverse w3_final "r3" with
  | some r => r
  | none => w3_req

/-- A thread that has already been settled: lock and ledger rows exist. -/
def w4_thread : Thread :=
  { id := "t4", creator_id := "u1", target_amount := 3, deadline_at := 100,
    committed_current := false, committed_amount := 0, group_id := none,
    audience_mode := "open",
    pledges := [{ id := 0, supporter_id := "u2", amount := 3, created_at := 5 }],
    targets := [] }

def w4_st : AppState :=
  { threads := [w4_thread], reverses := [],
    locks := [{ id := 1, deal_type := "thread", deal_id := "t4", created_at := 6 }],
    entries := [{ id := 2, deal_type := "thread", deal_id := "t4", payer_id := "u2",
                  payee_id := "u1", amount := 3, status := "open", created_at := 6,
                  declared_at := 0 }],
    memberships := [], next_id := 3 }

def w4_deleted : AppState := { w4_st with threads := [] }

/-- An open thread with no pledges (target 10, deadline 100). -/
def w5_thread : Thread :=
  { id := "t5", creator_id := "u1", target_amount := 10, deadline_at := 100,
    committed_current := false, committed_amount := 0, group_id := none,
    audience_mode := "open", pledges := [], targets := [] }

def w5_st : AppState :=
  { threads := [w5_thread], reverses := [], locks := [], entries := [],
    memberships := [], next_id := 0 }

/-- The spec's tie-break example: asks 100 (at t=1), 80 (at t=2), 80 (at t=3);
pledges sum to 80. -/
def w6_req : ReverseRequest :=
  { id := "r6", creator_id := "u1", status := "open", group_id := none,
    audience_mode := "open", winner_bid_id := none,
    bids := [{ id := 0, bidder_id := "u2", ask_amount := 100, created_at := 1, active := true },
             { id := 1, bidder_id := "u3", ask_amount := 80, created_at := 2, active := true },
             { id := 2, bidder_id := "u4", ask_amount := 80, created_at := 3, active := true }],
    pledges := [{ id := 3, supporter_id := "u2", amount := 80, created_at := 4 }],
    targets := [] }

def w6_st : AppState :=
  { threads := [], reverses := [w6_req], locks := [], entries := [],
    memberships := [], next_id := 4 }

/-- A thread identical to `w5_thread` in the four status inputs but different
in every other field (id, creator, audience, committed amount). -/
def w7_thread : Thread :=
  { id := "t7", creator_id := "u2", target_amount := 10, deadline_at := 100,
    committed_current := false, committed_amount := 7, group_id := some "g1",
    audience_mode := "group", pledges := [], targets := ["u3"] }

/-- A partially funded open thread (pledged 3 of target 10), creator `alice`. -/
def w8_thread : Thread :=
  { id := "t8", creator_id := "u1", target_amount := 10, deadline_at := 100,
    committed_current := false, committed_amount := 0, group_id := none,
    audience_mode := "open",
    pledges := [{ id := 0, supporter_id := "u2", amount := 3, created_at := 5 }],
    targets := [] }

def w8_st : AppState :=
  { threads := [w8_thread], reverses := [], locks := [], entries := [],
    memberships := [], next_id := 1 }

/-- One open ledger entry: `bob` owes `alice` 3. -/
def w9_entry : BalanceEntry :=
  { id := 0, deal_type := "thread", deal_id := "t4", payer_id := "u2",
    payee_id := "u1", amount := 3, status := "open", created_at := 6, declared_at := 0 }

def w9_st : AppState :=
  { threads := [], reverses := [], locks := [], entries := [w9_entry],
    memberships := [], next_id := 1 }

/-! ### Frame and counting lemmas for the settlement primitives -/

theorem create_balance_entries_frame (dt di payee : String) (now : Int)
    (items : List (String × ℚ)) (st : AppState) :
    (create_balance_entries st dt di payee now items).threads = st.threads ∧
    (create_balance_entries st dt di payee now items).reverses = st.reverses ∧
    (create_balance_entries st dt di payee now items).locks = st.locks ∧
    (create_balance_entries st dt di payee now items).memberships = st.memberships := by
  induction items generalizing st with
  | nil => exact ⟨rfl, rfl, rfl, rfl⟩
  | cons hd tl ih =>
    obtain ⟨payer, amt⟩ := hd
    simp only [create_balance_entries]
    split
    · exact ih st
    · exact ih _

theorem lock_deal_frame (st : AppState) (dt di : String) (now : Int) :
    (lock_deal st dt di now).threads = st.threads ∧
    (lock_deal st dt di now).reverses = st.reverses ∧
    (lock_deal st dt di now).entries = st.entries ∧
    (lock_deal st dt di now).memberships = st.memberships :=
  ⟨rfl, rfl, rfl, rfl⟩

theorem deal_locked_lock_deal (st : AppState) (dt di : String) (now : Int) :
    deal_locked (lock_deal st dt di now).locks dt di = true := by
  simp [deal_locked, lock_deal, List.any_append]

theorem lock_count_lock_deal_self (st : AppState) (dt di : String) (now : Int) :
    lock_count (lock_deal st dt di now).locks dt di = lock_count st.locks dt di + 1 := by
  simp [lock_count, lock_deal, List.filter_append]

theorem entry_count_create_balance_entries (dt di payee : String) (now : Int)
    (items : List (String × ℚ)) (st : AppState) :
    entry_count (create_balance_entries st dt di payee now items).entries dt di
      = entry_count st.entries dt di + items.countP (fun x => !decide (x.2 ≤ 0)) := by
  induction items generalizing st with
  | nil => simp [create_balance_entries]
  | cons hd tl ih =>
    obtain ⟨payer, amt⟩ := hd
    simp only [create_balance_entries]
    split
    · rename_i h
      rw [ih st]
      simp [List.countP_cons, h]
    · rename_i h
      rw [ih]
      simp only [entry_count, List.filter_append, List.length_append, List.countP_cons]
      simp [h]
      omega

theorem deal_locked_false_of_lock_count_zero (locks : List DealLock) (dt di : String)
    (h : lock_count locks dt di = 0) : deal_locked locks dt di = false := by
  rw [lock_count, List.length_eq_zero] at h
  rw [deal_locked]
  rw [List.any_eq_false]
  intro l hl
  intro hp
  have : l ∈ locks.filter (fun l => l.deal_type == dt && l.deal_id == di) :=
    List.mem_filter.mpr ⟨hl, hp⟩
  rw [h] at this
  cases this

/-! ### Lookup after an in-place row update -/

theorem find?_beq_update {α β : Type} [BEq β] [LawfulBEq β]
    (key : α → β) (l : List α) (k k0 : β) (a a' : α)
    (hfind : l.find? (fun x => key x == k) = some a)
    (hk0 : k0 = k) (hid : key a' = k) :
    (l.map (fun x => if key x == k0 then a' else x)).find? (fun x => key x == k)
      = some a' := by
  rw [hk0]
  have ha' : (key a' == k) = true := beq_iff_eq.mpr hid
  induction l with
  | nil => simp at hfind
  | cons hd tl ih =>
    rw [List.map_cons]
    by_cases h : (key hd == k) = true
    · rw [if_pos h]
      simp [List.find?, ha']
    · have hfalse : (key hd == k) = false := by
        exact Bool.not_eq_true _ ▸ h
      rw [if_neg h]
      simp only [List.find?, hfalse]
      simp only [List.find?, hfalse] at hfind
      exact ih hfind

theorem find?_beq_update_ne {α β : Type} [BEq β] [LawfulBEq β]
    (key : α → β) (l : List α) (k k0 : β) (a' : α)
    (hne : key a' ≠ k) (hk0 : k0 = key a') :
    (l.map (fun x => if key x == k0 then a' else x)).find? (fun x => key x == k)
      = l.find? (fun x => key x == k) := by
  rw [hk0]
  have ha' : (key a' == k) = false := by
    rw [beq_eq_false_iff_ne]; exact hne
  induction l with
  | nil => rfl
  | cons hd tl ih =>
    rw [List.map_cons]
    by_cases h : (key hd == key a') = true
    · have hhd : (key hd == k) = false := by
        rw [beq_iff_eq.mp h]; exact ha'
      rw [if_pos h]
      simp only [List.find?, ha', hhd]
      exact ih
    · rw [if_neg h]
      by_cases h2 : (key hd == k) = true
      · simp only [List.find?, h2]
      · have hhd : (key hd == k) = false := Bool.not_eq_true _ ▸ h2
        simp only [List.find?, hhd]
        exact ih

/-! ### Settleability of a thread deal does not depend on the clock -/

theorem thread_settleable_iff (t : Thread) (total : ℚ) (now : Int) :
    (thread_status t total now = "funded" ∨ thread_status t total now = "committed_current")
      ↔ (t.committed_current = true ∨ t.target_amount ≤ total) := by
  unfold thread_status
  by_cases hc : t.committed_current
  · simp [hc]
  · by_cases hf : t.target_amount ≤ total
    · simp [hc, ge_iff_le, hf]
    · by_cases he : now > t.deadline_at
      · simp [hc, ge_iff_le, hf, he]
      · simp [hc, ge_iff_le, hf, he]

theorem try_close_thread_deal_frame (st : AppState) (t : Thread) (now : Int) :
    (try_close_thread_deal st t now).threads = st.threads ∧
    (try_close_thread_deal st t now).reverses = st.reverses ∧
    (try_close_thread_deal st t now).memberships = st.memberships := by
  unfold try_close_thread_deal
  split
  · exact ⟨rfl, rfl, rfl⟩
  · split
    · exact ⟨rfl, rfl, rfl⟩
    · have h := create_balance_entries_frame "thread" t.id t.creator_id now
        (t.pledges.map (fun p => (p.supporter_id, p.amount))) st
      have h2 := lock_deal_frame (create_balance_entries st "thread" t.id t.creator_id now
        (t.pledges.map (fun p => (p.supporter_id, p.amount)))) "thread" t.id now
      exact ⟨h2.1.trans h.1, h2.2.1.trans h.2.1, h2.2.2.2.trans h.2.2.2⟩

/-! ### One-shot behaviour of the settlement engine -/

theorem try_close_thread_deal_not_settleable (st : AppState) (t : Thread) (now : Int)
    (h : ¬ (t.committed_current = true ∨ t.target_amount ≤ pledged_total t.pledges)) :
    try_close_thread_deal st t now = st := by
  unfold try_close_thread_deal
  rw [if_pos]
  intro hs
  exact h ((thread_settleable_iff t _ now).mp hs)

theorem try_close_thread_deal_locked (st : AppState) (t : Thread) (now : Int)
    (h : deal_locked st.locks "thread" t.id = true) :
    try_close_thread_deal st t now = st := by
  unfold try_close_thread_deal
  by_cases hns : ¬ (thread_status t (pledged_total t.pledges) now = "funded" ∨
      thread_status t (pledged_total t.pledges) now = "committed_current")
  · rw [if_pos hns]
  · rw [if_neg hns, if_pos h]

theorem try_close_thread_deal_settle (st : AppState) (t : Thread) (now : Int)
    (hs : t.committed_current = true ∨ t.target_amount ≤ pledged_total t.pledges)
    (hl : deal_locked st.locks "thread" t.id = false) :
    try_close_thread_deal st t now =
      lock_deal
        (create_balance_entries st "thread" t.id t.creator_id now
          (t.pledges.map (fun p => (p.supporter_id, p.amount))))
        "thread" t.id now := by
  unfold try_close_thread_deal
  rw [if_neg (not_not_intro ((thread_settleable_iff t _ now).mpr hs))]
  rw [if_neg (by simp [hl])]

theorem try_close_thread_deal_idem (st : AppState) (t : Thread) (now now2 : Int) :
    try_close_thread_deal (try_close_thread_deal st t now) t now2
      = try_close_thread_deal st t now := by
  by_cases hs : (t.committed_current = true ∨ t.target_amount ≤ pledged_total t.pledges)
  · by_cases hl : deal_locked st.locks "thread" t.id = true
    · rw [try_close_thread_deal_locked st t now hl]
      exact try_close_thread_deal_locked st t now2 hl
    · have hl' : deal_locked st.locks "thread" t.id = false := by
        cases hdl : deal_locked st.locks "thread" t.id
        · rfl
        · exact absurd hdl hl
      rw [try_close_thread_deal_settle st t now hs hl']
      exact try_close_thread_deal_locked _ t now2 (deal_locked_lock_deal _ "thread" t.id now)
  · rw [try_close_thread_deal_not_settleable st t now hs]
    exact try_close_thread_deal_not_settleable st t now2 hs

theorem try_close_reverse_deal_not_open (st : AppState) (req : ReverseRequest) (now : Int)
    (h : req.status ≠ "open") :
    try_close_reverse_deal st req now = (st, req) := by
  unfold try_close_reverse_deal
  rw [if_pos h]

theorem try_close_reverse_deal_locked (st : AppState) (req : ReverseRequest) (now : Int)
    (h : deal_locked st.locks "reverse" req.id = true) :
    try_close_reverse_deal st req now = (st, req) := by
  unfold try_close_reverse_deal
  by_cases ho : req.status ≠ "open"
  · rw [if_pos ho]
  · rw [if_neg ho, if_pos h]

theorem try_close_reverse_deal_no_bid (st : AppState) (req : ReverseRequest) (now : Int)
    (hlow : lowest_active_bid req = none) :
    try_close_reverse_deal st req now = (st, req) := by
  unfold try_close_reverse_deal
  by_cases ho : req.status ≠ "open"
  · rw [if_pos ho]
  · rw [if_neg ho]
    by_cases hl : deal_locked st.locks "reverse" req.id = true
    · rw [if_pos hl]
    · rw [if_neg hl, hlow]

theorem try_close_reverse_deal_under (st : AppState) (req : ReverseRequest) (now : Int)
    (low : ReverseBid) (hlow : lowest_active_bid req = some low)
    (hlt : reverse_pledged_total req.pledges < low.ask_amount) :
    try_close_reverse_deal st req now = (st, req) := by
  unfold try_close_reverse_deal
  by_cases ho : req.status ≠ "open"
  · rw [if_pos ho]
  · rw [if_neg ho]
    by_cases hl : deal_locked st.locks "reverse" req.id = true
    · rw [if_pos hl]
    · rw [if_neg hl, hlow]
      exact if_pos hlt

theorem try_close_reverse_deal_settle (st : AppState) (req : ReverseRequest) (now : Int)
    (low : ReverseBid)
    (hopen : req.status = "open")
    (hl : deal_locked st.locks "reverse" req.id = false)
    (hlow : lowest_active_bid req = some low)
    (hge : low.ask_amount ≤ reverse_pledged_total req.pledges) :
    try_close_reverse_deal st req now =
      (lock_deal
        (create_balance_entries
          { st with reverses := (update_reverse st.reverses
              { req with status := "closed", winner_bid_id := some low.id }) }
          "reverse" req.id low.bidder_id now
          (req.pledges.map (fun p => (p.supporter_id, p.amount))))
        "reverse" req.id now,
       { req with status := "closed", winner_bid_id := some low.id }) := by
  unfold try_close_reverse_deal
  rw [if_neg (by simp [hopen])]
  rw [if_neg (by simp [hl])]
  rw [hlow]
  exact if_neg (not_lt.mpr hge)

theorem try_close_reverse_deal_idem (st : AppState) (req : ReverseRequest) (now now2 : Int) :
    try_close_reverse_deal (try_close_reverse_deal st req now).1
      (try_close_reverse_deal st req now).2 now2 = try_close_reverse_deal st req now := by
  by_cases ho : req.status = "open"
  · by_cases hl : deal_locked st.locks "reverse" req.id = true
    · rw [try_close_reverse_deal_locked st req now hl]
      exact try_close_reverse_deal_locked st req now2 hl
    · have hl' : deal_locked st.locks "reverse" req.id = false := by
        cases hdl : deal_locked st.locks "reverse" req.id
        · rfl
        · exact absurd hdl hl
      cases hlow : lowest_active_bid req with
      | none =>
        rw [try_close_reverse_deal_no_bid st req now hlow]
        exact try_close_reverse_deal_no_bid st req now2 hlow
      | some low =>
        by_cases hlt : reverse_pledged_total req.pledges < low.ask_amount
        · rw [try_close_reverse_deal_under st req now low hlow hlt]
          exact try_close_reverse_deal_under st req now2 low hlow hlt
        · rw [try_close_reverse_deal_settle st req now low ho hl' hlow (not_lt.mp hlt)]
          exact try_close_reverse_deal_not_open _ _ now2 (by simp)
  · rw [try_close_reverse_deal_not_open st req now ho]
    exact try_close_reverse_deal_not_open st req now2 ho

theorem countP_pledge_items_of_pos (ps : List ThreadPledge)
    (hpos : ∀ p ∈ ps, 0 < p.amount) :
    (ps.map (fun p => (p.supporter_id, p.amount))).countP (fun x => !decide (x.2 ≤ 0))
      = ps.length := by
  rw [List.countP_map]
  rw [List.countP_eq_length]
  intro p hp
  simp [Function.comp, not_le.mpr (hpos p hp)]

theorem countP_reverse_items_of_pos (ps : List ReversePledge)
    (hpos : ∀ p ∈ ps, 0 < p.amount) :
    (ps.map (fun p => (p.supporter_id, p.amount))).countP (fun x => !decide (x.2 ≤ 0))
      = ps.length := by
  rw [List.countP_map]
  rw [List.countP_eq_length]
  intro p hp
  simp [Function.comp, not_le.mpr (hpos p hp)]

theorem try_close_thread_deal_counts (st : AppState) (t : Thread) (now : Int)
    (hs : t.committed_current = true ∨ t.target_amount ≤ pledged_total t.pledges)
    (hl0 : lock_count st.locks "thread" t.id = 0)
    (he0 : entry_count st.entries "thread" t.id = 0)
    (hpos : ∀ p ∈ t.pledges, 0 < p.amount) :
    lock_count (try_close_thread_deal st t now).locks "thread" t.id = 1 ∧
    entry_count (try_close_thread_deal st t now).entries "thread" t.id = t.pledges.length := by
  have hl := deal_locked_false_of_lock_count_zero _ _ _ hl0
  rw [try_close_thread_deal_settle st t now hs hl]
  constructor
  · rw [lock_count_lock_deal_self]
    have hfr := (create_balance_entries_frame "thread" t.id t.creator_id now
      (t.pledges.map (fun p => (p.supporter_id, p.amount))) st).2.2.1
    rw [lock_count, hfr, ← lock_count, hl0]
  · have hent : (lock_deal
        (create_balance_entries st "thread" t.id t.creator_id now
          (t.pledges.map (fun p => (p.supporter_id, p.amount)))) "thread" t.id now).entries
      = (create_balance_entries st "thread" t.id t.creator_id now
          (t.pledges.map (fun p => (p.supporter_id, p.amount)))).entries := rfl
    rw [hent, entry_count_create_balance_entries, he0,
        countP_pledge_items_of_pos t.pledges hpos]
    omega

theorem try_close_reverse_deal_counts (st : AppState) (req : ReverseRequest) (now : Int)
    (low : ReverseBid)
    (hopen : req.status = "open")
    (hlow : lowest_active_bid req = some low)
    (hge : low.ask_amount ≤ reverse_pledged_total req.pledges)
    (hl0 : lock_count st.locks "reverse" req.id = 0)
    (he0 : entry_count st.entries "reverse" req.id = 0)
    (hpos : ∀ p ∈ req.pledges, 0 < p.amount) :
    lock_count (try_close_reverse_deal st req now).1.locks "reverse" req.id = 1 ∧
    entry_count (try_close_reverse_deal st req now).1.entries "reverse" req.id
      = req.pledges.length := by
  have hl := deal_locked_false_of_lock_count_zero _ _ _ hl0
  rw [try_close_reverse_deal_settle st req now low hopen hl hlow hge]
  constructor
  · rw [lock_count_lock_deal_self]
    have hfr := (create_balance_entries_frame "reverse" req.id low.bidder_id now
      (req.pledges.map (fun p => (p.supporter_id, p.amount)))
      { st with reverses := (update_reverse st.reverses
          { req with status := "closed", winner_bid_id := some low.id }) }).2.2.1
    rw [lock_count, hfr]
    rw [show ({ st with reverses := (update_reverse st.reverses
        { req with status := "closed", winner_bid_id := some low.id }) } : AppState).locks
      = st.locks from rfl]
    rw [← lock_count, hl0]
  · rw [show (lock_deal
        (create_balance_entries
          { st with reverses := (update_reverse st.reverses
              { req with status := "closed", winner_bid_id := some low.id }) }
          "reverse" req.id low.bidder_id now
          (req.pledges.map (fun p => (p.supporter_id, p.amount))))
        "reverse" req.id now).entries
      = (create_balance_entries
          { st with reverses := (update_reverse st.reverses
              { req with status := "closed", winner_bid_id := some low.id }) }
          "reverse" req.id low.bidder_id now
          (req.pledges.map (fun p => (p.supporter_id, p.amount)))).entries from rfl]
    rw [entry_count_create_balance_entries]
    rw [show ({ st with reverses := (update_reverse st.reverses
        { req with status := "closed", winner_bid_id := some low.id }) } : AppState).entries
      = st.entries from rfl]
    rw [he0, countP_reverse_items_of_pos req.pledges hpos]
    omega

/-! ### The lowest active bid is minimal for the key (ask_amount, created_at) -/

theorem bid_key_lt_irrefl (b : ReverseBid) : ¬ bid_key_lt b b := by
  rintro (hlt | ⟨-, hlt⟩) <;> exact lt_irrefl _ hlt

theorem not_bid_key_lt_iff (a b : ReverseBid) :
    ¬ bid_key_lt a b ↔
      (b.ask_amount < a.ask_amount ∨
        (b.ask_amount = a.ask_amount ∧ b.created_at ≤ a.created_at)) := by
  unfold bid_key_lt
  constructor
  · intro h
    push_neg at h
    obtain ⟨h1, h2⟩ := h
    rcases eq_or_lt_of_le h1 with heq | hlt
    · exact Or.inr ⟨heq, h2 heq.symm⟩
    · exact Or.inl hlt
  · rintro (hlt | ⟨heq, hle⟩) (h1 | ⟨h2, h3⟩)
    · exact lt_asymm hlt h1
    · exact absurd (h2 ▸ hlt) (lt_irrefl _)
    · exact absurd (heq ▸ h1) (lt_irrefl _)
    · exact absurd h3 (not_lt.mpr hle)

theorem bid_key_lt_trans (x y z : ReverseBid)
    (h1 : bid_key_lt x y) (h2 : bid_key_lt y z) : bid_key_lt x z := by
  rcases h1 with h1 | ⟨h1a, h1b⟩ <;> rcases h2 with h2 | ⟨h2a, h2b⟩
  · exact Or.inl (h1.trans h2)
  · exact Or.inl (h1.trans_eq h2a)
  · exact Or.inl (h1a.trans_lt h2)
  · exact Or.inr ⟨h1a.trans h2a, h1b.trans h2b⟩

theorem not_bid_key_lt_trans (x y z : ReverseBid)
    (h1 : ¬ bid_key_lt y z) (h2 : ¬ bid_key_lt x y) : ¬ bid_key_lt x z := by
  rw [not_bid_key_lt_iff] at h1 h2 ⊢
  rcases h1 with h1 | ⟨h1a, h1b⟩ <;> rcases h2 with h2 | ⟨h2a, h2b⟩
  · exact Or.inl (h1.trans h2)
  · exact Or.inl (h1.trans_eq h2a)
  · exact Or.inl (h1a.trans_lt h2)
  · exact Or.inr ⟨h1a.trans h2a, h1b.trans h2b⟩

theorem foldl_min_bid_mem (l : List ReverseBid) (acc : Option ReverseBid) (b : ReverseBid)
    (h : l.foldl min_bid_step acc = some b) :
    acc = some b ∨ b ∈ l := by
  induction l generalizing acc with
  | nil => exact Or.inl h
  | cons hd tl ih =>
    rw [List.foldl_cons] at h
    rcases ih (min_bid_step acc hd) h with hcase | hmem
    · cases acc with
      | none =>
        have : hd = b := Option.some.inj hcase
        exact Or.inr (this ▸ List.mem_cons_self _ _)
      | some m =>
        simp only [min_bid_step] at hcase
        by_cases hlt : bid_key_lt hd m
        · rw [if_pos hlt] at hcase
          exact Or.inr ((Option.some.inj hcase) ▸ List.mem_cons_self _ _)
        · rw [if_neg hlt] at hcase
          exact Or.inl hcase
    · exact Or.inr (List.mem_cons_of_mem _ hmem)

theorem foldl_min_bid_minimal (l : List ReverseBid) (acc : Option ReverseBid) (b : ReverseBid)
    (h : l.foldl min_bid_step acc = some b) :
    (∀ b' ∈ l, ¬ bid_key_lt b' b) ∧ (∀ a, acc = some a → ¬ bid_key_lt a b) := by
  induction l generalizing acc with
  | nil =>
    refine ⟨?_, ?_⟩
    · intro b' hb'
      cases hb'
    intro a ha
    rw [List.foldl_nil] at h
    rw [ha] at h
    obtain rfl := Option.some.inj h
    exact bid_key_lt_irrefl _
  | cons hd tl ih =>
    rw [List.foldl_cons] at h
    obtain ⟨hall, hacc⟩ := ih (min_bid_step acc hd) h
    constructor
    · intro b' hb'
      rcases List.mem_cons.mp hb' with rfl | hmem
      · cases acc with
        | none => exact hacc b' rfl
        | some m =>
          by_cases hlt : bid_key_lt b' m
          · exact hacc b' (by simp [min_bid_step, if_pos hlt])
          · have hm := hacc m (by simp [min_bid_step, if_neg hlt])
            exact not_bid_key_lt_trans b' m b hm hlt
      · exact hall b' hmem
    · intro a ha
      cases acc with
      | none => cases ha
      | some m =>
        obtain rfl : m = a := Option.some.inj ha
        by_cases hhd : bid_key_lt hd m
        · have h1 := hacc hd (by simp [min_bid_step, if_pos hhd])
          intro hmb
          exact h1 (bid_key_lt_trans hd m b hhd hmb)
        · exact hacc m (by simp [min_bid_step, if_neg hhd])

theorem lowest_active_bid_spec (req : ReverseRequest) (b : ReverseBid)
    (hb : lowest_active_bid req = some b) :
    b ∈ req.bids ∧ b.active = true ∧
      ∀ b' ∈ req.bids, b'.active = true →
        (b.ask_amount < b'.ask_amount ∨
          (b.ask_amount = b'.ask_amount ∧ b.created_at ≤ b'.created_at)) := by
  unfold lowest_active_bid at hb
  rcases foldl_min_bid_mem _ _ _ hb with hacc | hmem
  · cases hacc
  · have hfil := List.mem_filter.mp hmem
    refine ⟨hfil.1, by simpa using hfil.2, ?_⟩
    intro b' hb' hact
    have hmin := (foldl_min_bid_minimal _ _ _ hb).1 b'
      (List.mem_filter.mpr ⟨hb', by simpa using hact⟩)
    exact (not_bid_key_lt_iff b' b).mp hmin

/-! ### Characterizing the reverse-pledge handler -/

theorem reverse_pledged_total_append (ps : List ReversePledge) (p : ReversePledge) :
    reverse_pledged_total (ps ++ [p]) = reverse_pledged_total ps + p.amount := by
  simp [reverse_pledged_total, List.map_append, List.sum_append]

theorem pledged_total_append (ps : List ThreadPledge) (p : ThreadPledge) :
    pledged_total (ps ++ [p]) = pledged_total ps + p.amount := by
  simp [pledged_total, List.map_append, List.sum_append]

theorem reverse_capacity_check_none_bound (req : ReverseRequest) (a : ℚ) (low : ReverseBid)
    (hlow : lowest_active_bid req = some low)
    (h : reverse_capacity_check req a = none) :
    a ≤ low.ask_amount - reverse_pledged_total req.pledges := by
  unfold reverse_capacity_check at h
  rw [hlow] at h
  dsimp only [] at h
  by_cases h2 : low.ask_amount - reverse_pledged_total req.pledges ≤ 0
  · rw [if_pos h2] at h; cases h
  rw [if_neg h2] at h
  by_cases h3 : low.ask_amount - reverse_pledged_total req.pledges < a
  · rw [if_pos h3] at h; cases h
  · exact not_lt.mp h3

theorem reverse_capacity_check_not_pd (req : ReverseRequest) (a : ℚ) :
    reverse_capacity_check req a ≠ some ApiError.permission_denied := by
  unfold reverse_capacity_check
  cases hlow : lowest_active_bid req with
  | none => simp
  | some low =>
    dsimp only []
    split
    · simp
    · split
      · simp
      · simp

theorem create_reverse_pledge_ok (st : AppState) (u : User) (rid : String) (a : ℚ)
    (now : Int) (st' : AppState)
    (h : create_reverse_pledge st (some u) rid a now = .ok st') :
    ∃ req, find_reverse st rid = some req ∧ req.status = "open" ∧
      reverse_capacity_check req a = none ∧
      st' = (try_close_reverse_deal
        { st with
          reverses := update_reverse st.reverses
            { req with pledges := req.pledges ++
                [{ id := st.next_id, supporter_id := u.id, amount := a, created_at := now }] }
          next_id := st.next_id + 1 }
        { req with pledges := req.pledges ++
            [{ id := st.next_id, supporter_id := u.id, amount := a, created_at := now }] }
        now).1 := by
  unfold create_reverse_pledge at h
  by_cases h1 : a < 1
  · rw [if_pos h1] at h; cases h
  rw [if_neg h1] at h
  cases hfr : find_reverse st rid with
  | none => rw [hfr] at h; cases h
  | some req =>
    rw [hfr] at h
    dsimp only [] at h
    by_cases hop : req.status ≠ "open"
    · rw [if_pos hop] at h; cases h
    rw [if_neg hop] at h
    cases hcc : reverse_capacity_check req a with
    | some e => rw [hcc] at h; cases h
    | none =>
      rw [hcc] at h
      dsimp only [] at h
      exact ⟨req, rfl, not_ne_iff.mp hop, hcc, (Except.ok.inj h).symm⟩

theorem create_reverse_pledge_not_pd (st : AppState) (user : Option User) (rid : String)
    (a : ℚ) (now : Int) :
    create_reverse_pledge st user rid a now ≠ .error .permission_denied := by
  unfold create_reverse_pledge
  by_cases h1 : a < 1
  · rw [if_pos h1]; simp
  rw [if_neg h1]
  cases user with
  | none => simp
  | some u =>
    dsimp only []
    cases hfr : find_reverse st rid with
    | none => simp
    | some req =>
      dsimp only []
      by_cases hop : req.status ≠ "open"
      · rw [if_pos hop]; simp
      rw [if_neg hop]
      cases hcc : reverse_capacity_check req a with
      | none => dsimp only []; simp
      | some e =>
        dsimp only []
        intro hc
        exact reverse_capacity_check_not_pd req a ((Except.error.inj hc) ▸ hcc)

theorem find_reverse_some_id (st : AppState) (rid : String) (req : ReverseRequest)
    (h : find_reverse st rid = some req) : req.id = rid := by
  unfold find_reverse at h
  have := List.find?_some h
  exact beq_iff_eq.mp this

theorem find_thread_some_id (st : AppState) (tid : String) (t : Thread)
    (h : find_thread st tid = some t) : t.id = tid := by
  unfold find_thread at h
  have := List.find?_some h
  exact beq_iff_eq.mp this

theorem find_reverse_update (rs : List ReverseRequest) (rid : String)
    (req req' : ReverseRequest)
    (hfind : rs.find? (fun r => r.id == rid) = some req)
    (hid : req'.id = rid) :
    (update_reverse rs req').find? (fun r => r.id == rid) = some req' := by
  unfold update_reverse
  exact find?_beq_update (fun r => r.id) rs rid req'.id req req' hfind hid hid

theorem find_thread_update (ts : List Thread) (tid : String) (t t' : Thread)
    (hfind : ts.find? (fun x => x.id == tid) = some t)
    (hid : t'.id = tid) :
    (update_thread ts t').find? (fun x => x.id == tid) = some t' := by
  unfold update_thread
  exact find?_beq_update (fun x => x.id) ts tid t'.id t t' hfind hid hid

/-- A closure fired during a pledge insertion respects the winner's ask:
the new pledged total never exceeds the lowest active bid matched. -/
theorem reverse_pledge_close_bound (st : AppState) (u : User) (rid : String) (a : ℚ)
    (now : Int) (st' : AppState) (req' : ReverseRequest)
    (h : create_reverse_pledge st (some u) rid a now = .ok st')
    (hfind' : find_reverse st' rid = some req')
    (hclosed : req'.status = "closed") :
    ∃ low, req'.winner_bid_id = some low.id ∧ low ∈ req'.bids ∧
      reverse_pledged_total req'.pledges ≤ low.ask_amount := by
  obtain ⟨req, hfr, hopen, hcc, hst'⟩ := create_reverse_pledge_ok st u rid a now st' h
  have hrid : req.id = rid := find_reverse_some_id st rid req hfr
  set p : ReversePledge :=
    { id := st.next_id, supporter_id := u.id, amount := a, created_at := now } with hp
  set req1 : ReverseRequest := { req with pledges := req.pledges ++ [p] } with hreq1
  set st1 : AppState :=
    { st with reverses := update_reverse st.reverses req1, next_id := st.next_id + 1 } with hst1
  have hf1 : find_reverse st1 rid = some req1 := by
    show (update_reverse st.reverses req1).find? (fun r => r.id == rid) = some req1
    exact find_reverse_update st.reverses rid req req1 hfr hrid
  have habsurd : st' = st1 → False := by
    intro hx
    rw [hx, hf1] at hfind'
    obtain rfl := Option.some.inj hfind'
    have : req.status = "closed" := hclosed
    rw [hopen] at this
    exact absurd this (by decide)
  by_cases hl : deal_locked st1.locks "reverse" req1.id = true
  · rw [try_close_reverse_deal_locked st1 req1 now hl] at hst'
    exact absurd hst' (fun hx => habsurd hx)
  have hl' : deal_locked st1.locks "reverse" req1.id = false := by
    cases hdl : deal_locked st1.locks "reverse" req1.id
    · rfl
    · exact absurd hdl hl
  cases hlow : lowest_active_bid req1 with
  | none =>
    rw [try_close_reverse_deal_no_bid st1 req1 now hlow] at hst'
    exact absurd hst' (fun hx => habsurd hx)
  | some low =>
    by_cases hlt : reverse_pledged_total req1.pledges < low.ask_amount
    · rw [try_close_reverse_deal_under st1 req1 now low hlow hlt] at hst'
      exact absurd hst' (fun hx => habsurd hx)
    · rw [try_close_reverse_deal_settle st1 req1 now low hopen hl' hlow (not_lt.mp hlt)] at hst'
      set req2 : ReverseRequest :=
        { req1 with status := "closed", winner_bid_id := some low.id } with hreq2
      have hrev : st'.reverses = update_reverse st1.reverses req2 := by
        rw [hst']
        exact (create_balance_entries_frame "reverse" req1.id low.bidder_id now
          (req1.pledges.map (fun q => (q.supporter_id, q.amount)))
          { st1 with reverses := update_reverse st1.reverses req2 }).2.1
      have hf2 : find_reverse st' rid = some req2 := by
        show st'.reverses.find? (fun r => r.id == rid) = some req2
        rw [hrev]
        apply find_reverse_update st1.reverses rid req1 req2
        · exact hf1
        · exact hrid
      rw [hf2] at hfind'
      obtain rfl := Option.some.inj hfind'
      refine ⟨low, rfl, ?_, ?_⟩
      · exact (lowest_active_bid_spec req1 low hlow).1
      · have hb := reverse_capacity_check_none_bound req a low hlow hcc
        have hsum : reverse_pledged_total req2.pledges
            = reverse_pledged_total req.pledges + a := by
          show reverse_pledged_total (req.pledges ++ [p]) = _
          rw [reverse_pledged_total_append]
        rw [hsum]
        linarith

/-! ### Characterizing the thread-pledge handler -/

theorem open_status_lt_target (t : Thread) (now : Int)
    (hstat : thread_status t (pledged_total t.pledges) now = "open") :
    pledged_total t.pledges < t.target_amount := by
  by_contra hge
  have hs := (thread_settleable_iff t (pledged_total t.pledges) now).mpr
    (Or.inr (not_lt.mp hge))
  rcases hs with hs | hs <;> rw [hstat] at hs <;> exact absurd hs (by decide)

theorem create_thread_pledge_ok_iff (st : AppState) (u : User) (tid : String) (a : ℚ)
    (now : Int) (t : Thread)
    (hfind : find_thread st tid = some t)
    (hallow : thread_user_allowed st.memberships t u = true)
    (ha : 1 ≤ a) :
    (∃ st', create_thread_pledge st (some u) tid a now = .ok st') ↔
      (thread_status t (pledged_total t.pledges) now = "open" ∧
        a ≤ t.target_amount - pledged_total t.pledges) := by
  unfold create_thread_pledge
  rw [if_neg (not_lt.mpr ha)]
  dsimp only []
  rw [hfind]
  dsimp only []
  rw [if_neg (not_not_intro hallow)]
  by_cases hstat : thread_status t (pledged_total t.pledges) now = "open"
  · rw [if_neg (not_ne_iff.mpr hstat)]
    have hrem : ¬ (t.target_amount - pledged_total t.pledges ≤ 0) := by
      have := open_status_lt_target t now hstat
      intro hc
      linarith
    rw [if_neg hrem]
    by_cases hle : t.target_amount - pledged_total t.pledges < a
    · rw [if_pos hle]
      constructor
      · rintro ⟨st', hst'⟩
        cases hst'
      · rintro ⟨-, hle2⟩
        exact absurd hle2 (not_le.mpr hle)
    · rw [if_neg hle]
      constructor
      · intro
        exact ⟨hstat, not_lt.mp hle⟩
      · intro
        exact ⟨_, rfl⟩
  · rw [if_pos hstat]
    constructor
    · rintro ⟨st', hst'⟩
      cases hst'
    · rintro ⟨h1, -⟩
      exact absurd h1 hstat

theorem create_thread_pledge_ok_state (st : AppState) (u : User) (tid : String) (a : ℚ)
    (now : Int) (st' : AppState)
    (h : create_thread_pledge st (some u) tid a now = .ok st') :
    ∃ t, find_thread st tid = some t ∧
      thread_status t (pledged_total t.pledges) now = "open" ∧
      a ≤ t.target_amount - pledged_total t.pledges ∧
      st'.threads = update_thread st.threads
        { t with pledges := t.pledges ++
            [{ id := st.next_id, supporter_id := u.id, amount := a, created_at := now }] } := by
  unfold create_thread_pledge at h
  by_cases h1 : a < 1
  · rw [if_pos h1] at h; cases h
  rw [if_neg h1] at h
  cases hfind : find_thread st tid with
  | none => rw [hfind] at h; cases h
  | some t =>
    rw [hfind] at h
    dsimp only [] at h
    by_cases hallow : ¬ thread_user_allowed st.memberships t u = true
    · rw [if_pos hallow] at h; cases h
    rw [if_neg hallow] at h
    by_cases hstat : thread_status t (pledged_total t.pledges) now ≠ "open"
    · rw [if_pos hstat] at h; cases h
    rw [if_neg hstat] at h
    by_cases hrem : t.target_amount - pledged_total t.pledges ≤ 0
    · rw [if_pos hrem] at h; cases h
    rw [if_neg hrem] at h
    by_cases hlt : t.target_amount - pledged_total t.pledges < a
    · rw [if_pos hlt] at h; cases h
    rw [if_neg hlt] at h
    refine ⟨t, rfl, not_ne_iff.mp hstat, not_lt.mp hlt, ?_⟩
    rw [← Except.ok.inj h]
    exact (try_close_thread_deal_frame _ _ now).1

theorem mem_update_thread (ts : List Thread) (t' t2 : Thread)
    (h : t2 ∈ update_thread ts t') : t2 ∈ ts ∨ t2 = t' := by
  unfold update_thread at h
  obtain ⟨x, hx, hxeq⟩ := List.mem_map.mp h
  by_cases hc : (x.id == t'.id) = true
  · rw [if_pos hc] at hxeq
    exact Or.inr hxeq.symm
  · rw [if_neg hc] at hxeq
    exact Or.inl (hxeq ▸ hx)

theorem targets_respected_step (st : AppState) (u : Option User) (tid : String) (a : ℚ)
    (now : Int) (st' : AppState)
    (h : create_thread_pledge st u tid a now = .ok st')
    (hinv : targets_respected st) : targets_respected st' := by
  cases u with
  | none =>
    unfold create_thread_pledge at h
    by_cases h1 : a < 1
    · rw [if_pos h1] at h; cases h
    · rw [if_neg h1] at h; simp at h
  | some uu =>
    obtain ⟨t, hfind, hstat, hle, hthreads⟩ := create_thread_pledge_ok_state st uu tid a now st' h
    intro t2 ht2
    rw [hthreads] at ht2
    rcases mem_update_thread st.threads _ t2 ht2 with hmem | rfl
    · exact hinv t2 hmem
    · show pledged_total (t.pledges ++
        [{ id := st.next_id, supporter_id := uu.id, amount := a, created_at := now }])
        ≤ t.target_amount
      rw [pledged_total_append]
      have := open_status_lt_target t now hstat
      linarith

theorem targets_respected_run (st : AppState)
    (reqs : List (Option User × String × ℚ × Int))
    (hinv : targets_respected st) :
    targets_respected (run_thread_pledges st reqs) := by
  induction reqs generalizing st with
  | nil => exact hinv
  | cons hd tl ih =>
    obtain ⟨u, tid, a, now⟩ := hd
    unfold run_thread_pledges
    cases hc : create_thread_pledge st u tid a now with
    | ok st' => exact ih st' (targets_respected_step st u tid a now st' hc hinv)
    | error e => exact ih st hinv

/-! ### Characterizing commit-current -/

theorem find_thread_update_ne (ts : List Thread) (tid2 : String) (t' : Thread)
    (hne : t'.id ≠ tid2) :
    (update_thread ts t').find? (fun x => x.id == tid2) = ts.find? (fun x => x.id == tid2) := by
  unfold update_thread
  exact find?_beq_update_ne (fun x => x.id) ts tid2 t'.id t' hne rfl

theorem commit_current_ok_iff (st : AppState) (u : User) (tid : String) (now : Int)
    (t : Thread) (hfind : find_thread st tid = some t) :
    (∃ st', commit_current st (some u) tid now = .ok st') ↔
      (t.creator_id = u.id ∧ 0 < pledged_total t.pledges ∧
        pledged_total t.pledges < t.target_amount ∧ t.committed_current = false) := by
  unfold commit_current
  rw [hfind]
  dsimp only []
  by_cases hcr : t.creator_id ≠ u.id
  · rw [if_pos hcr]
    constructor
    · rintro ⟨st', h⟩; cases h
    · rintro ⟨h, -⟩; exact absurd h hcr
  rw [if_neg hcr]
  by_cases htot : pledged_total t.pledges ≤ 0 ∨ pledged_total t.pledges ≥ t.target_amount
  · rw [if_pos htot]
    constructor
    · rintro ⟨st', h⟩; cases h
    · rintro ⟨-, h2, h3, -⟩
      rcases htot with hx | hx
      · exact absurd h2 (not_lt.mpr hx)
      · exact absurd h3 (not_lt.mpr hx)
  rw [if_neg htot]
  push_neg at htot
  cases hcc : t.committed_current with
  | true =>
    rw [if_pos rfl]
    constructor
    · rintro ⟨st', h⟩; cases h
    · rintro ⟨-, -, -, h4⟩; cases h4
  | false =>
    rw [if_neg (by simp)]
    constructor
    · intro
      exact ⟨not_ne_iff.mp hcr, htot.1, htot.2, rfl⟩
    · intro
      exact ⟨_, rfl⟩

theorem commit_current_ok_state (st : AppState) (u : User) (tid : String) (now : Int)
    (st' : AppState) (h : commit_current st (some u) tid now = .ok st') :
    ∃ t, find_thread st tid = some t ∧ t.creator_id = u.id ∧
      t.committed_current = false ∧ 0 < pledged_total t.pledges ∧
      pledged_total t.pledges < t.target_amount ∧
      st'.threads = update_thread st.threads
        { t with committed_current := true, committed_amount := pledged_total t.pledges } ∧
      find_thread st' tid = some
        { t with committed_current := true, committed_amount := pledged_total t.pledges } := by
  unfold commit_current at h
  cases hfind : find_thread st tid with
  | none => rw [hfind] at h; cases h
  | some t =>
    rw [hfind] at h
    dsimp only [] at h
    by_cases hcr : t.creator_id ≠ u.id
    · rw [if_pos hcr] at h; cases h
    rw [if_neg hcr] at h
    by_cases htot : pledged_total t.pledges ≤ 0 ∨ pledged_total t.pledges ≥ t.target_amount
    · rw [if_pos htot] at h; cases h
    rw [if_neg htot] at h
    push_neg at htot
    cases hcc : t.committed_current with
    | true => rw [hcc, if_pos rfl] at h; cases h
    | false =>
      rw [hcc, if_neg (by simp)] at h
      have hthreads : st'.threads = update_thread st.threads
          { t with committed_current := true, committed_amount := pledged_total t.pledges } := by
        rw [← Except.ok.inj h]
        exact (try_close_thread_deal_frame _ _ now).1
      refine ⟨t, rfl, not_ne_iff.mp hcr, hcc, htot.1, htot.2, hthreads, ?_⟩
      show st'.threads.find? (fun x => x.id == tid) = _
      rw [hthreads]
      exact find_thread_update st.threads tid t _ hfind (find_thread_some_id st tid t hfind)

theorem commit_current_one_shot (st : AppState) (u : User) (tid : String) (now : Int)
    (st' : AppState) (h : commit_current st (some u) tid now = .ok st')
    (u2 : User) (now2 : Int) :
    commit_current st' (some u2) tid now2 = .error .permission_denied ∨
    commit_current st' (some u2) tid now2 = .error .invalid_state := by
  obtain ⟨t, -, hcr, -, htot1, htot2, -, hfind'⟩ := commit_current_ok_state st u tid now st' h
  unfold commit_current
  rw [hfind']
  dsimp only []
  by_cases hcr2 : t.creator_id ≠ u2.id
  · rw [if_pos hcr2]
    exact Or.inl rfl
  · rw [if_neg hcr2]
    rw [if_neg (by push_neg; exact ⟨htot1, htot2⟩)]
    rw [if_pos rfl]
    exact Or.inr rfl

theorem committed_current_monotone_pledge (st : AppState) (u : Option User)
    (tid : String) (a : ℚ) (now : Int) (st' : AppState) (tid2 : String) (t2 : Thread)
    (h : create_thread_pledge st u tid a now = .ok st')
    (hfind2 : find_thread st tid2 = some t2) (hcc : t2.committed_current = true) :
    ∃ t3, find_thread st' tid2 = some t3 ∧ t3.committed_current = true := by
  cases u with
  | none =>
    unfold create_thread_pledge at h
    by_cases h1 : a < 1
    · rw [if_pos h1] at h; cases h
    · rw [if_neg h1] at h; simp at h
  | some uu =>
    obtain ⟨t, hfind, hstat, -, hthreads⟩ := create_thread_pledge_ok_state st uu tid a now st' h
    by_cases hid : t.id = tid2
    · have htid : t.id = tid := find_thread_some_id st tid t hfind
      have heq : tid = tid2 := by rw [← htid]; exact hid
      have hft : find_thread st tid2 = some t := by rw [← heq]; exact hfind
      rw [hft] at hfind2
      have ht2 : t.committed_current = true := by
        rw [Option.some.inj hfind2]
        exact hcc
      have hstat2 : thread_status t (pledged_total t.pledges) now = "committed_current" := by
        simp [thread_status, ht2]
      rw [hstat2] at hstat
      exact absurd hstat (by decide)
    · refine ⟨t2, ?_, hcc⟩
      show st'.threads.find? (fun x => x.id == tid2) = some t2
      rw [hthreads, find_thread_update_ne st.threads tid2
        { t with pledges := t.pledges ++
            [{ id := st.next_id, supporter_id := uu.id, amount := a, created_at := now }] } hid]
      exact hfind2

theorem committed_current_monotone_commit (st : AppState) (u : Option User)
    (tid : String) (now : Int) (st' : AppState) (tid2 : String) (t2 : Thread)
    (h : commit_current st u tid now = .ok st')
    (hfind2 : find_thread st tid2 = some t2) (hcc : t2.committed_current = true) :
    ∃ t3, find_thread st' tid2 = some t3 ∧ t3.committed_current = true := by
  cases u with
  | none => unfold commit_current at h; cases h
  | some uu =>
    obtain ⟨t, hfind, -, -, -, -, hthreads, hfind'⟩ := commit_current_ok_state st uu tid now st' h
    by_cases hid : t.id = tid2
    · rw [find_thread_some_id st tid t hfind] at hid
      subst hid
      exact ⟨_, hfind', rfl⟩
    · refine ⟨t2, ?_, hcc⟩
      show st'.threads.find? (fun x => x.id == tid2) = some t2
      rw [hthreads, find_thread_update_ne st.threads tid2
        { t with committed_current := true, committed_amount := pledged_total t.pledges } hid]
      exact hfind2

theorem committed_current_monotone_try_close (st : AppState) (t : Thread) (now : Int)
    (tid2 : String) (t2 : Thread)
    (hfind2 : find_thread st tid2 = some t2) (hcc : t2.committed_current = true) :
    ∃ t3, find_thread (try_close_thread_deal st t now) tid2 = some t3 ∧
      t3.committed_current = true := by
  refine ⟨t2, ?_, hcc⟩
  show (try_close_thread_deal st t now).threads.find? (fun x => x.id == tid2) = some t2
  rw [(try_close_thread_deal_frame st t now).1]
  exact hfind2

/-! ### Deleting a thread -/

theorem delete_thread_ok (st : AppState) (u : User) (tid admin_username : String)
    (t : Thread) (hfind : find_thread st tid = some t)
    (hperm : (t.creator_id == u.id || is_admin u admin_username) = true) :
    delete_thread st (some u) tid admin_username =
      .ok { st with threads := st.threads.filter (fun x => !(x.id == tid)) } := by
  unfold delete_thread
  rw [hfind]
  dsimp only []
  rw [if_neg (not_not_intro hperm)]

theorem delete_thread_denied (st : AppState) (u : User) (tid admin_username : String)
    (t : Thread) (hfind : find_thread st tid = some t)
    (hperm : (t.creator_id == u.id || is_admin u admin_username) = false) :
    delete_thread st (some u) tid admin_username = .error .permission_denied := by
  unfold delete_thread
  rw [hfind]
  dsimp only []
  rw [if_pos (by simp [hperm])]

theorem find_thread_filter_out (ts : List Thread) (tid : String) :
    (ts.filter (fun x => !(x.id == tid))).find? (fun x => x.id == tid) = none := by
  rw [List.find?_eq_none]
  intro x hx
  have := List.mem_filter.mp hx
  simpa using this.2

/-! ### Declaring a ledger entry received -/

theorem declare_received_cases (st : AppState) (u : User) (eid : Nat) (now : Int)
    (e : BalanceEntry) (hfind : st.entries.find? (fun x => x.id == eid) = some e) :
    (e.payee_id ≠ u.id →
      declare_received st (some u) eid now = .error .permission_denied) ∧
    (e.payee_id = u.id → e.status ≠ "open" →
      declare_received st (some u) eid now = .error .invalid_state) ∧
    (e.payee_id = u.id → e.status = "open" →
      declare_received st (some u) eid now = .ok { st with entries := (st.entries.map
        (fun x => if x.id == e.id
          then { e with status := "received_declared", declared_at := now } else x)) }) := by
  unfold declare_received
  rw [hfind]
  dsimp only []
  refine ⟨?_, ?_, ?_⟩
  · intro hne
    rw [if_pos hne]
  · intro hpay hstat
    rw [if_neg (not_not_intro hpay), if_pos hstat]
  · intro hpay hstat
    rw [if_neg (not_not_intro hpay), if_neg (not_not_intro hstat)]

theorem declare_received_ok_inv (st : AppState) (u : User) (eid : Nat) (now : Int)
    (st' : AppState) (h : declare_received st (some u) eid now = .ok st') :
    ∃ e, st.entries.find? (fun x => x.id == eid) = some e ∧
      e.payee_id = u.id ∧ e.status = "open" ∧
      st'.entries.find? (fun x => x.id == eid) = some
        { e with status := "received_declared", declared_at := now } ∧
      st'.entries = st.entries.map (fun x => if x.id == e.id
        then { e with status := "received_declared", declared_at := now } else x) ∧
      st'.threads = st.threads ∧ st'.reverses = st.reverses ∧ st'.locks = st.locks := by
  unfold declare_received at h
  cases hfind : st.entries.find? (fun x => x.id == eid) with
  | none => rw [hfind] at h; cases h
  | some e =>
    rw [hfind] at h
    dsimp only [] at h
    by_cases hpay : e.payee_id ≠ u.id
    · rw [if_pos hpay] at h; cases h
    rw [if_neg hpay] at h
    by_cases hstat : e.status ≠ "open"
    · rw [if_pos hstat] at h; cases h
    rw [if_neg hstat] at h
    have hst' := (Except.ok.inj h).symm
    have hkey0 := List.find?_some hfind
    have hkey : e.id = eid := beq_iff_eq.mp hkey0
    refine ⟨e, rfl, not_ne_iff.mp hpay, not_ne_iff.mp hstat, ?_, by rw [hst'], by rw [hst'],
      by rw [hst'], by rw [hst']⟩
    rw [hst']
    exact find?_beq_update (fun x : BalanceEntry => x.id) st.entries eid e.id e
      { e with status := "received_declared", declared_at := now } hfind hkey hkey

theorem declare_received_terminal (st : AppState) (u : User) (eid : Nat) (now : Int)
    (st' : AppState) (h : declare_received st (some u) eid now = .ok st')
    (u2 : User) (now2 : Int) :
    declare_received st' (some u2) eid now2 = .error .permission_denied ∨
    declare_received st' (some u2) eid now2 = .error .invalid_state := by
  obtain ⟨e, -, -, -, hfind', -⟩ := declare_received_ok_inv st u eid now st' h
  unfold declare_received
  rw [hfind']
  dsimp only []
  by_cases hpay : e.payee_id ≠ u2.id
  · rw [if_pos hpay]
    exact Or.inl rfl
  · rw [if_neg hpay, if_pos (by decide)]
    exact Or.inr rfl

/-! ### The audience gate on the bid path -/

theorem create_or_update_bid_denied (st : AppState) (u : User) (rid : String)
    (ask : ℚ) (now : Int) (req : ReverseRequest)
    (hfind : find_reverse st rid = some req)
    (hopen : req.status = "open")
    (hask : ¬ (ask < 1))
    (hdeny : reverse_user_allowed_to_bid st.memberships req u = false) :
    create_or_update_bid st (some u) rid ask now = .error .permission_denied := by
  unfold create_or_update_bid
  rw [if_neg hask]
  dsimp only []
  rw [hfind]
  dsimp only []
  rw [if_neg (not_not_intro hopen)]
  rw [if_pos (by simp [hdeny])]

/-! ## The claims -/

/-- C1: `trySettle` is idempotent and at-most-once.  Re-invoking either
settlement routine leaves the state exactly as after the first invocation
(so N ≥ 1 invocations produce the effect of one); a settleable, not-yet-locked
deal settles into exactly one deal lock keyed by the deal and one ledger
entry per pledge; an invocation that finds the lock present, or finds the
deal not settleable — for a thread, neither committed nor funded; for a
reverse request, no active bid, or a non-open status, or a pledged total
still below the lowest ask — returns the state (ledger and lock table)
unchanged. -/
theorem c1_try_settle_idempotent_at_most_once
    (st : AppState) (t : Thread) (req : ReverseRequest) (now now2 : Int) :
    (try_close_thread_deal (try_close_thread_deal st t now) t now2
       = try_close_thread_deal st t now) ∧
    (try_close_reverse_deal (try_close_reverse_deal st req now).1
       (try_close_reverse_deal st req now).2 now2 = try_close_reverse_deal st req now) ∧
    ((t.committed_current = true ∨ t.target_amount ≤ pledged_total t.pledges) →
      lock_count st.locks "thread" t.id = 0 →
      entry_count st.entries "thread" t.id = 0 →
      (∀ p ∈ t.pledges, 0 < p.amount) →
      lock_count (try_close_thread_deal st t now).locks "thread" t.id = 1 ∧
      entry_count (try_close_thread_deal st t now).entries "thread" t.id
        = t.pledges.length) ∧
    (∀ low, req.status = "open" → lowest_active_bid req = some low →
      low.ask_amount ≤ reverse_pledged_total req.pledges →
      lock_count st.locks "reverse" req.id = 0 →
      entry_count st.entries "reverse" req.id = 0 →
      (∀ p ∈ req.pledges, 0 < p.amount) →
      lock_count (try_close_reverse_deal st req now).1.locks "reverse" req.id = 1 ∧
      entry_count (try_close_reverse_deal st req now).1.entries "reverse" req.id
        = req.pledges.length) ∧
    (deal_locked st.locks "thread" t.id = true → try_close_thread_deal st t now = st) ∧
    (¬ (t.committed_current = true ∨ t.target_amount ≤ pledged_total t.pledges) →
      try_close_thread_deal st t now = st) ∧
    (deal_locked st.locks "reverse" req.id = true →
      try_close_reverse_deal st req now = (st, req)) ∧
    (lowest_active_bid req = none → try_close_reverse_deal st req now = (st, req)) ∧
    (req.status ≠ "open" → try_close_reverse_deal st req now = (st, req)) ∧
    (∀ low, lowest_active_bid req = some low →
      reverse_pledged_total req.pledges < low.ask_amount →
      try_close_reverse_deal st req now = (st, req)) := by
  refine ⟨try_close_thread_deal_idem st t now now2,
          try_close_reverse_deal_idem st req now now2, ?_, ?_,
          try_close_thread_deal_locked st t now,
          try_close_thread_deal_not_settleable st t now,
          try_close_reverse_deal_locked st req now,
          try_close_reverse_deal_no_bid st req now,
          try_close_reverse_deal_not_open st req now,
          fun low hlow hlt => try_close_reverse_deal_under st req now low hlow hlt⟩
  · intro hs hl0 he0 hpos
    exact try_close_thread_deal_counts st t now hs hl0 he0 hpos
  · intro low ho hlow hge hl0 he0 hpos
    exact try_close_reverse_deal_counts st req now low ho hlow hge hl0 he0 hpos

/-- C1 witness: the funded thread and met reverse request of `w1_st` settle
into exactly one lock and one ledger entry each, while the under-pledged
request `w2b_req` (ask 5, nothing pledged) is left entirely unchanged. -/
theorem c1_witness :
    lock_count (try_close_thread_deal w1_st w1_thread 50).locks "thread" "t1" = 1 ∧
    entry_count (try_close_thread_deal w1_st w1_thread 50).entries "thread" "t1" = 1 ∧
    lock_count (try_close_reverse_deal w1_st w1_req 50).1.locks "reverse" "r1" = 1 ∧
    entry_count (try_close_reverse_deal w1_st w1_req 50).1.entries "reverse" "r1" = 1 ∧
    try_close_reverse_deal w2b_st w2b_req 50 = (w2b_st, w2b_req) := by
  obtain ⟨-, -, h3, h4, -⟩ :=
    c1_try_settle_idempotent_at_most_once w1_st w1_thread w1_req 50 60
  obtain ⟨-, -, -, -, -, -, -, -, -, hunder⟩ :=
    c1_try_settle_idempotent_at_most_once w2b_st w1_thread w2b_req 50 60
  have ht := h3 (Or.inr (by decide)) (by decide) (by decide) (by decide)
  have hr := h4 { id := 1, bidder_id := "u2", ask_amount := 5, created_at := 6, active := true }
    (by decide) (by decide) (by decide) (by decide) (by decide) (by decide)
  refine ⟨ht.1, ht.2, hr.1, hr.2, ?_⟩
  exact hunder { id := 0, bidder_id := "u2", ask_amount := 5, created_at := 1, active := true }
    (by decide) (by decide)

/-- C2 as stated is false: with no active bid, pledges of 100 + 100 accumulate
with no ceiling check; a later bid asking 150 settles immediately, closing the
request with pledged total 200 strictly above the winning ask of 150. -/
theorem c2_counterexample :
    w2_run = .ok w2_final ∧
    find_reverse w2_final "r2" = some w2_closed_req ∧
    w2_closed_req.status = "closed" ∧
    reverse_pledged_total w2_closed_req.pledges = 200 ∧
    w2_closed_req.winner_bid_id = some 2 ∧
    w2_closed_req.bids =
      [{ id := 2, bidder_id := "u2", ask_amount := 150, created_at := 12, active := true }] ∧
    (150 : ℚ) < 200 := by
  exact ⟨by decide, by decide, by decide, by decide, by decide, by decide, by norm_num⟩

/-- C2 corrected: the bound `sum(pledges) ≤ winnerBid.askAmount` does hold for
every closure fired by a pledge insertion — the remaining-capacity check
guarantees it there — but not for closures fired by a bid placed at or below
the already-accumulated pledge total. -/
theorem c2_close_bound_pledge_path (st : AppState) (u : User) (rid : String) (a : ℚ)
    (now : Int) (st' : AppState) (req' : ReverseRequest)
    (h : create_reverse_pledge st (some u) rid a now = .ok st')
    (hfind' : find_reverse st' rid = some req')
    (hclosed : req'.status = "closed") :
    ∃ low, req'.winner_bid_id = some low.id ∧ low ∈ req'.bids ∧
      reverse_pledged_total req'.pledges ≤ low.ask_amount :=
  reverse_pledge_close_bound st u rid a now st' req' h hfind' hclosed

/-- C2 witness: a pledge of 5 closes `w2b_req` (ask 5) and the closed request
satisfies the bound. -/
theorem c2_witness :
    create_reverse_pledge w2b_st (some carol) "r2b" 5 20 = .ok w2b_final ∧
    find_reverse w2b_final "r2b" = some w2b_req_after ∧
    w2b_req_after.status = "closed" ∧
    (∃ low, w2b_req_after.winner_bid_id = some low.id ∧ low ∈ w2b_req_after.bids ∧
      reverse_pledged_total w2b_req_after.pledges ≤ low.ask_amount) :=
  ⟨by decide, by decide, by decide,
   c2_close_bound_pledge_path w2b_st carol "r2b" 5 20 w2b_final w2b_req_after
     (by decide) (by decide) (by decide)⟩

/-- C3 as stated is false: `carol` is outside the audience of the
user-list-restricted request `w3_req`, yet her pledge is accepted and
recorded — the reverse-pledge handler never consults the audience gate. -/
theorem c3_counterexample :
    reverse_user_allowed_to_bid w3_st.memberships w3_req carol = false ∧
    create_reverse_pledge w3_st (some carol) "r3" 5 10 = .ok w3_final ∧
    find_reverse w3_final "r3" = some w3_req_after ∧
    w3_req_after.pledges =
      [{ id := 0, supporter_id := "u3", amount := 5, created_at := 10 }] :=
  ⟨by decide, by decide, by decide, by decide⟩

/-- C3 corrected: the audience gate governs bidding only.  A bid on an open
request by an actor the gate rejects fails with PermissionDenied (recording
nothing), while the reverse-pledge handler can never return PermissionDenied
for anyone — pledging is not audience-gated. -/
theorem c3_gate_governs_bids_not_pledges (st : AppState) (u : User) (rid : String)
    (ask : ℚ) (now : Int) (req : ReverseRequest)
    (hfind : find_reverse st rid = some req)
    (hopen : req.status = "open")
    (hask : 1 ≤ ask)
    (hdeny : reverse_user_allowed_to_bid st.memberships req u = false) :
    create_or_update_bid st (some u) rid ask now = .error .permission_denied ∧
    ∀ st2 user2 rid2 a2 now2,
      create_reverse_pledge st2 user2 rid2 a2 now2 ≠ .error .permission_denied :=
  ⟨create_or_update_bid_denied st u rid ask now req hfind hopen (not_lt.mpr hask) hdeny,
   fun st2 user2 rid2 a2 now2 => create_reverse_pledge_not_pd st2 user2 rid2 a2 now2⟩

/-- C3 witness: `carol`'s bid on the restricted request is rejected with
PermissionDenied, while her pledge is not. -/
theorem c3_witness :
    create_or_update_bid w3_st (some carol) "r3" 5 10 = .error .permission_denied ∧
    create_reverse_pledge w3_st (some carol) "r3" 5 10 ≠ .error .permission_denied :=
  ⟨(c3_gate_governs_bids_not_pledges w3_st carol "r3" 5 10 w3_req (by decide) (by decide)
      (by norm_num) (by decide)).1,
   (c3_gate_governs_bids_not_pledges w3_st carol "r3" 5 10 w3_req (by decide) (by decide)
      (by norm_num) (by decide)).2 w3_st (some carol) "r3" 5 10⟩

/-- C4 as stated is false: `alice` (the creator) successfully deletes thread
`t4`, the thread row (with its pledges) is gone, yet the Deal Lock for
('thread', 't4') and the ledger entry derived from that deal id survive. -/
theorem c4_counterexample :
    delete_thread w4_st (some alice) "t4" "josephdayan" = .ok w4_deleted ∧
    find_thread w4_deleted "t4" = none ∧
    deal_locked w4_deleted.locks "thread" "t4" = true ∧
    entry_count w4_deleted.entries "thread" "t4" = 1 :=
  ⟨by decide, by decide, by decide, by decide⟩

/-- C4 corrected: deletion by the creator or an administrator removes the
thread row — and with it its cascade-owned pledges and targets — but the Deal
Lock and the ledger entries for that deal id have no foreign key to the thread
and are left untouched; any other caller is rejected with PermissionDenied. -/
theorem c4_delete_cascades_rows_only (st : AppState) (u : User)
    (tid admin_username : String) (t : Thread)
    (hfind : find_thread st tid = some t) :
    ((t.creator_id == u.id || is_admin u admin_username) = true →
      ∃ st', delete_thread st (some u) tid admin_username = .ok st' ∧
        find_thread st' tid = none ∧
        st'.locks = st.locks ∧ st'.entries = st.entries ∧
        st'.threads = st.threads.filter (fun x => !(x.id == tid))) ∧
    ((t.creator_id == u.id || is_admin u admin_username) = false →
      delete_thread st (some u) tid admin_username = .error .permission_denied) := by
  constructor
  · intro hperm
    refine ⟨_, delete_thread_ok st u tid admin_username t hfind hperm, ?_, rfl, rfl, rfl⟩
    show (st.threads.filter (fun x => !(x.id == tid))).find? (fun x => x.id == tid) = none
    exact find_thread_filter_out st.threads tid
  · intro hperm
    exact delete_thread_denied st u tid admin_username t hfind hperm

/-- C4 witness: deleting `t4` as its creator removes the thread but leaves the
lock table and the ledger exactly as they were. -/
theorem c4_witness :
    ∃ st', delete_thread w4_st (some alice) "t4" "josephdayan" = .ok st' ∧
      find_thread st' "t4" = none ∧
      st'.locks = w4_st.locks ∧ st'.entries = w4_st.entries ∧
      st'.threads = w4_st.threads.filter (fun x => !(x.id == "t4")) :=
  (c4_delete_cascades_rows_only w4_st alice "t4" "josephdayan" w4_thread
    (by decide)).1 (by decide)

/-- C5 as stated is false: one half is positive, the gate allows `bob`, the
status is open and 1/2 does not exceed the remaining capacity, yet the pledge
is rejected — the handler requires amount ≥ 1, not merely amount > 0. -/
theorem c5_counterexample :
    (0 : ℚ) < 1/2 ∧
    thread_user_allowed w5_st.memberships w5_thread bob = true ∧
    thread_status w5_thread (pledged_total w5_thread.pledges) 50 = "open" ∧
    (1 : ℚ)/2 ≤ w5_thread.target_amount - pledged_total w5_thread.pledges ∧
    create_thread_pledge w5_st (some bob) "t5" (1/2) 50 = .error .validation :=
  ⟨by norm_num, by decide, by decide, by decide, by decide⟩

/-- C5 corrected ("amount a > 0" must read "amount a ≥ 1"): for an
authenticated actor the gate allows, a pledge of amount a ≥ 1 is accepted iff
the derived status is open and a ≤ targetAmount - sum(pledges); a pledge that
would overshoot is rejected in full (the handler errors and records nothing),
and no sequence of pledge requests pushes any thread's pledged total strictly
above its target. -/
theorem c5_pledge_acceptance (st : AppState) (u : User) (tid : String) (a : ℚ)
    (now : Int) (t : Thread)
    (hfind : find_thread st tid = some t)
    (hallow : thread_user_allowed st.memberships t u = true)
    (ha : 1 ≤ a)
    (reqs : List (Option User × String × ℚ × Int)) :
    ((∃ st', create_thread_pledge st (some u) tid a now = .ok st') ↔
      (thread_status t (pledged_total t.pledges) now = "open" ∧
        a ≤ t.target_amount - pledged_total t.pledges)) ∧
    (targets_respected st → targets_respected (run_thread_pledges st reqs)) :=
  ⟨create_thread_pledge_ok_iff st u tid a now t hfind hallow ha,
   fun hinv => targets_respected_run st reqs hinv⟩

/-- C5 witness: on the open thread `t5` (target 10), a pledge of 10 is
accepted; a run where 4 is accepted and a subsequent 9 is rejected keeps the
total at most the target. -/
theorem c5_witness :
    (∃ st', create_thread_pledge w5_st (some bob) "t5" 10 50 = .ok st') ∧
    targets_respected (run_thread_pledges w5_st
      [(some bob, "t5", 4, 50), (some carol, "t5", 9, 51)]) := by
  have h := c5_pledge_acceptance w5_st bob "t5" 10 50 w5_thread (by decide) (by decide)
    (by norm_num) [(some bob, "t5", 4, 50), (some carol, "t5", 9, 51)]
  exact ⟨h.1.mpr ⟨by decide, by decide⟩, h.2 (by decide)⟩

/-- C6: the lowest active bid is an active bid minimizing the ask amount with
ties broken by earliest creation time; when the pledged total of an open,
unlocked request meets it, settlement closes the request and fixes
winnerBidRef to that bid, and a repeat invocation changes nothing (exactly
once); with no active bid, no settlement occurs. -/
theorem c6_lowest_bid_settlement (st : AppState) (req : ReverseRequest)
    (now now2 : Int) (low : ReverseBid) :
    (lowest_active_bid req = some low →
      low ∈ req.bids ∧ low.active = true ∧
        ∀ b' ∈ req.bids, b'.active = true →
          (low.ask_amount < b'.ask_amount ∨
            (low.ask_amount = b'.ask_amount ∧ low.created_at ≤ b'.created_at))) ∧
    (req.status = "open" → deal_locked st.locks "reverse" req.id = false →
      lowest_active_bid req = some low →
      low.ask_amount ≤ reverse_pledged_total req.pledges →
      (try_close_reverse_deal st req now).2.status = "closed" ∧
      (try_close_reverse_deal st req now).2.winner_bid_id = some low.id ∧
      try_close_reverse_deal (try_close_reverse_deal st req now).1
        (try_close_reverse_deal st req now).2 now2 = try_close_reverse_deal st req now) ∧
    (lowest_active_bid req = none → try_close_reverse_deal st req now = (st, req)) := by
  refine ⟨fun hlow => lowest_active_bid_spec req low hlow, ?_,
    try_close_reverse_deal_no_bid st req now⟩
  intro ho hl hlow hge
  refine ⟨?_, ?_, try_close_reverse_deal_idem st req now now2⟩
  · rw [try_close_reverse_deal_settle st req now low ho hl hlow hge]
  · rw [try_close_reverse_deal_settle st req now low ho hl hlow hge]

/-- C6 witness: the spec's tie-break example — asks 100 (t=1), 80 (t=2),
80 (t=3) with pledges summing to 80 — resolves to the earliest 80-ask and
closes with it as winner. -/
theorem c6_witness :
    lowest_active_bid w6_req =
      some { id := 1, bidder_id := "u3", ask_amount := 80, created_at := 2, active := true } ∧
    (try_close_reverse_deal w6_st w6_req 50).2.status = "closed" ∧
    (try_close_reverse_deal w6_st w6_req 50).2.winner_bid_id = some 1 := by
  have h := c6_lowest_bid_settlement w6_st w6_req 50 60
    { id := 1, bidder_id := "u3", ask_amount := 80, created_at := 2, active := true }
  have hs := h.2.1 (by decide) (by decide) (by decide) (by decide)
  exact ⟨by decide, hs.1, hs.2.1⟩

/-- C7: the derived status of a thread is the pure first-match-wins cascade
over (committedCurrent, pledge amounts, targetAmount, deadline, now) — it
coincides with the cascade as the spec words it, and any two threads agreeing
on those inputs receive the same status at the same clock. -/
theorem c7_thread_status_pure (t1 t2 : Thread) (now : Int)
    (hcc : t1.committed_current = t2.committed_current)
    (hpl : pledged_total t1.pledges = pledged_total t2.pledges)
    (hta : t1.target_amount = t2.target_amount)
    (hdl : t1.deadline_at = t2.deadline_at) :
    thread_status t1 (pledged_total t1.pledges) now
      = spec_thread_status t1.committed_current (t1.pledges.map (fun p => p.amount))
          t1.target_amount t1.deadline_at now ∧
    thread_status t1 (pledged_total t1.pledges) now
      = thread_status t2 (pledged_total t2.pledges) now := by
  constructor
  · rfl
  · unfold thread_status
    rw [hcc, hpl, hta, hdl]

/-- C7 witness: `w5_thread` and `w7_thread` differ in id, creator, audience,
group and committed amount but agree on the four status inputs, and get the
same status, equal to the spec cascade. -/
theorem c7_witness :
    thread_status w5_thread (pledged_total w5_thread.pledges) 50
      = spec_thread_status w5_thread.committed_current
          (w5_thread.pledges.map (fun p => p.amount))
          w5_thread.target_amount w5_thread.deadline_at 50 ∧
    thread_status w5_thread (pledged_total w5_thread.pledges) 50
      = thread_status w7_thread (pledged_total w7_thread.pledges) 50 :=
  c7_thread_status_pure w5_thread w7_thread 50 rfl rfl rfl rfl

/-- C8: commit-to-current succeeds exactly when the caller is the thread's
creator, the pledged total is strictly between 0 and the target, and the flag
is not already set (conditions under which the derived status is necessarily
open or expired); success sets committedCurrent and captures committedAmount;
the transition is one-shot — a second call fails — and monotone: no pledge,
commit or settlement invocation ever resets the flag. -/
theorem c8_commit_current (st : AppState) (u : User) (tid : String) (now : Int)
    (t : Thread) (hfind : find_thread st tid = some t) :
    ((∃ st', commit_current st (some u) tid now = .ok st') ↔
      (t.creator_id = u.id ∧ 0 < pledged_total t.pledges ∧
        pledged_total t.pledges < t.target_amount ∧ t.committed_current = false)) ∧
    (t.committed_current = false → pledged_total t.pledges < t.target_amount →
      ∀ now', thread_status t (pledged_total t.pledges) now' = "open" ∨
        thread_status t (pledged_total t.pledges) now' = "expired") ∧
    (∀ st', commit_current st (some u) tid now = .ok st' →
      find_thread st' tid = some
        { t with committed_current := true, committed_amount := pledged_total t.pledges } ∧
      (∀ u2 now2, commit_current st' (some u2) tid now2 = .error .permission_denied ∨
        commit_current st' (some u2) tid now2 = .error .invalid_state)) ∧
    (∀ st2 u0 tid0 a0 now0 st0 tid2 t2,
      create_thread_pledge st2 u0 tid0 a0 now0 = .ok st0 →
      find_thread st2 tid2 = some t2 → t2.committed_current = true →
      ∃ t3, find_thread st0 tid2 = some t3 ∧ t3.committed_current = true) ∧
    (∀ st2 u0 tid0 now0 st0 tid2 t2,
      commit_current st2 u0 tid0 now0 = .ok st0 →
      find_thread st2 tid2 = some t2 → t2.committed_current = true →
      ∃ t3, find_thread st0 tid2 = some t3 ∧ t3.committed_current = true) ∧
    (∀ st2 t0 now0 tid2 t2,
      find_thread st2 tid2 = some t2 → t2.committed_current = true →
      ∃ t3, find_thread (try_close_thread_deal st2 t0 now0) tid2 = some t3 ∧
        t3.committed_current = true) := by
  refine ⟨commit_current_ok_iff st u tid now t hfind, ?_, ?_, ?_, ?_, ?_⟩
  · intro hcc hlt now'
    unfold thread_status
    rw [hcc]
    rw [if_neg (by simp)]
    rw [if_neg (not_le.mpr hlt)]
    by_cases he : now' > t.deadline_at
    · rw [if_pos he]
      exact Or.inr rfl
    · rw [if_neg he]
      exact Or.inl rfl
  · intro st' hok
    obtain ⟨t0, hfind0, -, -, -, -, -, hfind'⟩ := commit_current_ok_state st u tid now st' hok
    rw [hfind] at hfind0
    obtain rfl := Option.some.inj hfind0
    exact ⟨hfind', fun u2 now2 => commit_current_one_shot st u tid now st' hok u2 now2⟩
  · intro st2 u0 tid0 a0 now0 st0 tid2 t2 h hf hcc
    exact committed_current_monotone_pledge st2 u0 tid0 a0 now0 st0 tid2 t2 h hf hcc
  · intro st2 u0 tid0 now0 st0 tid2 t2 h hf hcc
    exact committed_current_monotone_commit st2 u0 tid0 now0 st0 tid2 t2 h hf hcc
  · intro st2 t0 now0 tid2 t2 hf hcc
    exact committed_current_monotone_try_close st2 t0 now0 tid2 t2 hf hcc

/-- C8 witness: on thread `t8` (pledged 3 of 10, flag unset) the creator's
commit succeeds; the four preconditions hold, so the iff applies and the
derived status is open or expired at any clock. -/
theorem c8_witness :
    (∃ st', commit_current w8_st (some alice) "t8" 50 = .ok st') ∧
    (thread_status w8_thread (pledged_total w8_thread.pledges) 50 = "open" ∨
      thread_status w8_thread (pledged_total w8_thread.pledges) 50 = "expired") := by
  have h := c8_commit_current w8_st alice "t8" 50 w8_thread (by decide)
  exact ⟨h.1.mpr ⟨by decide, by decide, by decide, by decide⟩,
         h.2.1 (by decide) (by decide) 50⟩

/-- C9: declareReceived fails with PermissionDenied whenever the caller is
not the entry's payee; a payee's call on a non-open entry fails with
InvalidState; on success (payee, open entry) the status becomes
received_declared with declaredAt = now and all other rows are unchanged; the
transition is terminal — after a success every further call on the entry
fails. -/
theorem c9_declare_received (st : AppState) (u : User) (eid : Nat) (now : Int)
    (e : BalanceEntry) (hfind : st.entries.find? (fun x => x.id == eid) = some e) :
    (e.payee_id ≠ u.id →
      declare_received st (some u) eid now = .error .permission_denied) ∧
    (e.payee_id = u.id → e.status ≠ "open" →
      declare_received st (some u) eid now = .error .invalid_state) ∧
    (e.payee_id = u.id → e.status = "open" →
      ∃ st', declare_received st (some u) eid now = .ok st' ∧
        st'.entries.find? (fun x => x.id == eid) = some
          { e with status := "received_declared", declared_at := now } ∧
        st'.threads = st.threads ∧ st'.locks = st.locks) ∧
    (∀ st', declare_received st (some u) eid now = .ok st' →
      ∀ u2 now2, declare_received st' (some u2) eid now2 = .error .permission_denied ∨
        declare_received st' (some u2) eid now2 = .error .invalid_state) := by
  obtain ⟨hc1, hc2, hc3⟩ := declare_received_cases st u eid now e hfind
  refine ⟨hc1, hc2, ?_, ?_⟩
  · intro hpay hopen
    refine ⟨_, hc3 hpay hopen, ?_, rfl, rfl⟩
    have hkey0 := List.find?_some hfind
    have hkey : e.id = eid := beq_iff_eq.mp hkey0
    exact find?_beq_update (fun x : BalanceEntry => x.id) st.entries eid e.id e
      { e with status := "received_declared", declared_at := now } hfind hkey hkey
  · intro st' hok u2 now2
    exact declare_received_terminal st u eid now st' hok u2 now2

/-- C9 witness: the payer `bob` is rejected with PermissionDenied; the payee
`alice` succeeds and the entry ends as received_declared with declaredAt set. -/
theorem c9_witness :
    declare_received w9_st (some bob) 0 50 = .error .permission_denied ∧
    (∃ st', declare_received w9_st (some alice) 0 50 = .ok st' ∧
      st'.entries.find? (fun x => x.id == 0) = some
        { w9_entry with status := "received_declared", declared_at := 50 } ∧
      st'.threads = w9_st.threads ∧ st'.locks = w9_st.locks) := by
  have h := c9_declare_received w9_st bob 0 50 w9_entry (by decide)
  have h2 := c9_declare_received w9_st alice 0 50 w9_entry (by decide)
  exact ⟨h.1 (by decide), h2.2.2.1 (by decide) (by decide)⟩

/-- C10: every monetary input at the public interface is validated against a
minimum of 1: a thread pledge, a bid ask or a reverse pledge strictly below 1
— fractional positive amounts included — is rejected with a validation error
before any state is touched. -/
theorem c10_minimum_amount (st : AppState) (user : Option User) (tid rid : String)
    (a : ℚ) (now : Int) (h : a < 1) :
    create_thread_pledge st user tid a now = .error .validation ∧
    create_or_update_bid st user rid a now = .error .validation ∧
    create_reverse_pledge st user rid a now = .error .validation := by
  unfold create_thread_pledge create_or_update_bid create_reverse_pledge
  rw [if_pos h, if_pos h, if_pos h]
  exact ⟨rfl, rfl, rfl⟩

/-- C10 witness: the positive fractional amount 1/2 is rejected by all three
handlers. -/
theorem c10_witness :
    create_thread_pledge w5_st (some bob) "t5" (1/2) 50 = .error .validation ∧
    create_or_update_bid w5_st (some bob) "r1" (1/2) 50 = .error .validation ∧
    create_reverse_pledge w5_st (some bob) "r1" (1/2) 50 = .error .validation :=
  c10_minimum_amount w5_st (some bob) "t5" "r1" (1/2) 50 (by norm_num)

end PledgeChallenges
